import Mathlib

/-!
# Cluster algebra and record views of `DataViewers.h`

A shallow embedding of `struct Cluster` and of the record views
(`DataViewer`, `LeafViewer`, `NodeViewer`) together with the memory the
clusters' octree volumes live in.

* A pointer `const MappableOctTree*` is an `Option Nat`: `none` is `NULL`,
  `some p` is the address `p` of a volume instance.
* Memory is a `Heap`: the list of volume instances ever placed in memory
  (instance `p` is the `p`-th cell), each with its voxel content and the number
  of times `free` was called on it, plus the trace of primitive calls and
  frees in program order.  Addresses are never reused, so identity of
  instances is equality of addresses.
* Member functions take the heap and every `Cluster&` they touch and return
  the new heap and the new value of each of those objects.  The objects passed
  by reference are distinct objects.  A function returns `none` exactly when
  it dereferences `NULL`, a freed instance or an address outside memory.
-/

namespace Leadit

/-- One volume instance in memory: its voxel set and how often it was freed. -/
structure Cell where
  content : Finset Nat
  frees : Nat
deriving DecidableEq

/-- A call that touches the allocator, as recorded in the heap trace. -/
inductive Event where
  | clone (src : Nat) (dst : Nat)
  | intersect (srcs : List Nat) (dst : Nat)
  | union (srcs : List Nat) (dst : Nat)
  | free (p : Nat)
deriving DecidableEq

/-- Memory holding octree volumes. -/
structure Heap where
  store : List Cell
  trace : List Event
deriving DecidableEq

/-- Number of `free` calls instance `p` has received (0 for an address outside memory). -/
def Heap.freeCount (h : Heap) (p : Nat) : Nat :=
  match h.store[p]? with
  | some c => c.frees
  | none => 0

/-- An instance is live when it is in memory and was never freed. -/
def Heap.live (h : Heap) (p : Nat) : Bool :=
  match h.store[p]? with
  | some c => c.frees == 0
  | none => false

/-- Dereference a pointer: the voxel content of a live instance. -/
def Heap.read (h : Heap) (p : Option Nat) : Option (Finset Nat) :=
  match p with
  | none => none
  | some k =>
    match h.store[k]? with
    | some c => if c.frees = 0 then some c.content else none
    | none => none

/-- Place a new instance with content `v` in memory; its address is returned. -/
def Heap.alloc (h : Heap) (v : Finset Nat) : Heap × Nat :=
  ({ h with store := h.store ++ [{ content := v, frees := 0 }] }, h.store.length)

/-- The C library call `free(p)` on a non-null pointer: the call is traced and
counted on the instance; a second `free` of the same instance is not rejected
but shows as a count of 2. -/
def Heap.free (h : Heap) (p : Nat) : Heap :=
  { store := h.store.modify (fun c => { c with frees := c.frees + 1 }) p,
    trace := h.trace ++ [Event.free p] }

/-- The C library call `free(p)`: nothing happens for `NULL`. -/
def Heap.freePtr (h : Heap) (p : Option Nat) : Heap :=
  match p with
  | none => h
  | some k => h.free k

/-- Dereference every pointer of an operand array. -/
def Heap.readAll (h : Heap) : List (Option Nat) → Option (List (Nat × Finset Nat))
  | [] => some []
  | none :: _ => none
  | some k :: ps =>
    match h.read (some k), Heap.readAll h ps with
    | some v, some vs => some ((k, v) :: vs)
    | _, _ => none

/-- Modelled from the spec: `MappableOctTree::clone` (MappableOctTree.h is not
in the sources).  "returns an independent owned copy with identical encoded
content"; the input is neither consumed nor freed. -/
def MappableOctTree.clone (h : Heap) (p : Option Nat) : Option (Heap × Nat) :=
  match p, h.read p with
  | some k, some v =>
    let r := h.alloc v
    some ({ r.1 with trace := r.1.trace ++ [Event.clone k r.2] }, r.2)
  | _, _ => none

/-- Modelled from the spec: `MappableOctTree::createFromIntersection(N, arr)`
(MappableOctTree.h is not in the sources).  "returns a freshly owned volume
encoding exactly the voxels occupied in all k inputs; does not consume or free
inputs". -/
def MappableOctTree.createFromIntersection (h : Heap) (arr : List (Option Nat)) :
    Option (Heap × Nat) :=
  match h.readAll arr with
  | some ((k, v) :: vs) =>
    let r := h.alloc (vs.foldl (fun acc kv => acc ∩ kv.2) v)
    some ({ r.1 with trace := r.1.trace ++ [Event.intersect (k :: vs.map Prod.fst) r.2] }, r.2)
  | _ => none

/-- Modelled from the spec: `MappableOctTree::createFromUnion(N, arr)`
(MappableOctTree.h is not in the sources).  "returns a freshly owned volume
encoding voxels occupied in at least one input; does not consume or free
inputs". -/
def MappableOctTree.createFromUnion (h : Heap) (arr : List (Option Nat)) :
    Option (Heap × Nat) :=
  match h.readAll arr with
  | some ((k, v) :: vs) =>
    let r := h.alloc (vs.foldl (fun acc kv => acc ∪ kv.2) v)
    some ({ r.1 with trace := r.1.trace ++ [Event.union (k :: vs.map Prod.fst) r.2] }, r.2)
  | _ => none

/-- Number of values of the C type `unsigned` (32 bits). -/
def UINT_RANGE : Nat := 4294967296

/-- The struct `Cluster`: `indices`, `MIV`, `MSV`. -/
structure Cluster where
  indices : List Nat
  MIV : Option Nat
  MSV : Option Nat
deriving DecidableEq

namespace Cluster

/-- The default constructor `Cluster(): MIV(NULL), MSV(NULL) {}`. -/
def new : Cluster := { indices := [], MIV := none, MSV := none }

/-- The member `bool isValid() const`. -/
def isValid (c : Cluster) : Bool := c.MIV.isSome && c.MSV.isSome

/-- The member `unsigned size() const`: `indices.size()` converted to `unsigned`. -/
def size (c : Cluster) : Nat := c.indices.length % UINT_RANGE

/-- The member `unsigned operator[](unsigned i) const`; `none` outside the vector. -/
def get (c : Cluster) (i : Nat) : Option Nat := c.indices[i]?

/-- The member `void clear()`. -/
def clear (h : Heap) (c : Cluster) : Heap × Cluster :=
  let h1 := match c.MIV with
    | some p => h.free p
    | none => h
  let h2 := match c.MSV with
    | some p => h1.free p
    | none => h1
  (h2, { indices := [], MIV := none, MSV := none })

/-- The copy constructor `Cluster(const Cluster& rhs)`. -/
def copy (h : Heap) (rhs : Cluster) : Option (Heap × Cluster) :=
  let r1 : Option (Heap × Option Nat) :=
    match rhs.MIV with
    | some p => (MappableOctTree.clone h (some p)).map (fun r => (r.1, some r.2))
    | none => some (h, none)
  match r1 with
  | none => none
  | some (h1, miv) =>
    let r2 : Option (Heap × Option Nat) :=
      match rhs.MSV with
      | some p => (MappableOctTree.clone h1 (some p)).map (fun r => (r.1, some r.2))
      | none => some (h1, none)
    match r2 with
    | none => none
    | some (h2, msv) => some (h2, { indices := rhs.indices, MIV := miv, MSV := msv })

/-- The member `void setToSingleton(unsigned i, miv, msv)`. -/
def setToSingleton (h : Heap) (self : Cluster) (i : Nat) (miv msv : Option Nat) :
    Option (Heap × Cluster) :=
  let r0 := clear h self
  let indices := r0.2.indices ++ [i]
  match MappableOctTree.clone r0.1 miv with
  | none => none
  | some (h1, p) =>
    match MappableOctTree.clone h1 msv with
    | none => none
    | some (h2, q) => some (h2, { indices := indices, MIV := some p, MSV := some q })

/-- The member `void mergeInto(Cluster& a, Cluster& b)`; the result lists the
new heap and the new states of `*this`, `a` and `b`. -/
def mergeInto (h : Heap) (self a b : Cluster) : Option (Heap × Cluster × Cluster × Cluster) :=
  let indices := (self.indices ++ a.indices) ++ b.indices
  match MappableOctTree.createFromIntersection h [a.MIV, b.MIV] with
  | none => none
  | some (h1, p) =>
    match MappableOctTree.createFromUnion h1 [a.MSV, b.MSV] with
    | none => none
    | some (h2, q) =>
      let ra := clear h2 a
      let rb := clear ra.1 b
      some (rb.1, { indices := indices, MIV := some p, MSV := some q }, ra.2, rb.2)

/-- The member `void addInto(Cluster& a)`; the result lists the new heap and
the new states of `*this` and `a`. -/
def addInto (h : Heap) (self a : Cluster) : Option (Heap × Cluster × Cluster) :=
  let indices := self.indices ++ a.indices
  match MappableOctTree.createFromIntersection h [self.MIV, a.MIV] with
  | none => none
  | some (h1, p) =>
    let h2 := h1.freePtr self.MIV
    match MappableOctTree.createFromUnion h2 [self.MSV, a.MSV] with
    | none => none
    | some (h3, q) =>
      let h4 := h3.freePtr self.MSV
      let ra := clear h4 a
      some (ra.1, { indices := indices, MIV := some p, MSV := some q }, ra.2)

/-- The member `void moveInto(Cluster& a)`; the result lists the new heap and
the new states of `*this` and `a`. -/
def moveInto (h : Heap) (self a : Cluster) : Heap × Cluster × Cluster :=
  let self1 : Cluster := { self with indices := a.indices }
  let a1 : Cluster := { a with indices := self.indices }
  let self2 : Cluster := { self1 with MIV := a1.MIV, MSV := a1.MSV }
  let a2 : Cluster := { a1 with MIV := none, MSV := none }
  let ra := clear h a2
  (ra.1, self2, ra.2)

end Cluster

/-- The heap after a primitive placed a new instance with content `v` in
memory and the call `e` was recorded. -/
def Heap.push (h : Heap) (v : Finset Nat) (e : Event) : Heap :=
  { store := h.store ++ [{ content := v, frees := 0 }], trace := h.trace ++ [e] }

/-- The volume instances a cluster points to. -/
def Cluster.handles (c : Cluster) : List Nat := c.MIV.toList ++ c.MSV.toList

/-- The clusters `cs` are valid and own their volumes in `h`: every pointer is
set, the instances are live, and no instance is referenced twice. -/
def Heap.Owned (h : Heap) (cs : List Cluster) : Prop :=
  (∀ c ∈ cs, c.isValid = true) ∧ (cs.map Cluster.handles).flatten.Nodup ∧
    ∀ p ∈ (cs.map Cluster.handles).flatten, h.live p = true

instance (h : Heap) (cs : List Cluster) : Decidable (h.Owned cs) :=
  inferInstanceAs (Decidable ((∀ c ∈ cs, c.isValid = true) ∧
    (cs.map Cluster.handles).flatten.Nodup ∧
    ∀ p ∈ (cs.map Cluster.handles).flatten, h.live p = true))

/-- The class `DataViewer`: the base address of the mapped region and the two
locator vectors. -/
structure DataViewer where
  treeptr : Nat
  pointtos : List Nat
  treeindices : List Nat
deriving DecidableEq

/-- The constructor `DataViewer(void *data, vector& treei, vector& pt)`; the
result lists the view and the new states of the caller's `treei` and `pt`.
`none` is the failed assertion. -/
def DataViewer.construct (data : Nat) (treei pt : List Nat) :
    Option (DataViewer × List Nat × List Nat) :=
  let pointtos := pt
  let pt1 : List Nat := []
  let treeindices := treei
  let treei1 : List Nat := []
  if pointtos.length = treeindices.length then
    some ({ treeptr := data, pointtos := pointtos, treeindices := treeindices }, treei1, pt1)
  else none

/-- The member `file_index getIndex(unsigned i) const`; `none` outside the vector. -/
def DataViewer.getIndex (v : DataViewer) (i : Nat) : Option Nat := v.pointtos[i]?

/-- The member `unsigned size() const` of `DataViewer`. -/
def DataViewer.size (v : DataViewer) : Nat := v.treeindices.length % UINT_RANGE

/-- The member `LeafViewer::getMSV`: the address `&treeptr[treeindices[i]]`;
`none` when `i` is outside the vector. -/
def LeafViewer.getMSV (v : DataViewer) (i : Nat) : Option Nat :=
  (v.treeindices[i]?).map (fun off => v.treeptr + off)

/-- The member `LeafViewer::getMIV`: the address `&treeptr[treeindices[i]]`;
`none` when `i` is outside the vector. -/
def LeafViewer.getMIV (v : DataViewer) (i : Nat) : Option Nat :=
  (v.treeindices[i]?).map (fun off => v.treeptr + off)

/-- The member `LeafViewer::isLeaf`. -/
def LeafViewer.isLeaf (_v : DataViewer) : Bool := true

/-- A heap with the volumes of three singleton clusters, used in examples. -/
def exHeap : Heap :=
  { store := [⟨{7}, 0⟩, ⟨{7}, 0⟩, ⟨{0, 2, 4}, 0⟩, ⟨{0, 2, 4}, 0⟩, ⟨{2, 4, 6}, 0⟩, ⟨{2, 4, 6}, 0⟩],
    trace := [] }

/-- A valid cluster with member 9 owning instances 0 and 1 of `exHeap`. -/
def exC : Cluster := { indices := [9], MIV := some 0, MSV := some 1 }

/-- A valid cluster with member 1 owning instances 2 and 3 of `exHeap`. -/
def exA : Cluster := { indices := [1], MIV := some 2, MSV := some 3 }

/-- A valid cluster with member 2 owning instances 4 and 5 of `exHeap`. -/
def exB : Cluster := { indices := [2], MIV := some 4, MSV := some 5 }

/-- The mapped region of the end-to-end scenario: two leaf records with voxels
`{0,2,4}` and `{2,4,6}` at offsets 0 and 1. -/
def scenarioHeap : Heap := { store := [⟨{0, 2, 4}, 0⟩, ⟨{2, 4, 6}, 0⟩], trace := [] }

/-- The end-to-end scenario: a leaf view over the two records (destinations 10
and 20), a singleton cluster from each record, and the merge of the two into
a default-constructed cluster. -/
def scenario : Option (Heap × Cluster × Cluster × Cluster) := do
  let (v, _, _) ← DataViewer.construct 0 [0, 1] [10, 20]
  let d1 ← v.getIndex 0
  let d2 ← v.getIndex 1
  let (h1, c1) ← Cluster.setToSingleton scenarioHeap Cluster.new d1
    (LeafViewer.getMIV v 0) (LeafViewer.getMSV v 0)
  let (h2, c2) ← Cluster.setToSingleton h1 Cluster.new d2
    (LeafViewer.getMIV v 1) (LeafViewer.getMSV v 1)
  Cluster.mergeInto h2 Cluster.new c1 c2

/-- The data-model invariant of a cluster: it has no members exactly when
both volumes are absent, and the two volumes are both present or both absent. -/
def Cluster.Inv (c : Cluster) : Prop :=
  (c.indices.length = 0 ↔ c.MIV = none ∧ c.MSV = none) ∧ c.MIV.isSome = c.MSV.isSome

instance (c : Cluster) : Decidable c.Inv :=
  inferInstanceAs (Decidable ((c.indices.length = 0 ↔ c.MIV = none ∧ c.MSV = none) ∧
    c.MIV.isSome = c.MSV.isSome))

/-- Every instance outside `F` that is in memory in `h` is unchanged in `k`:
between `h` and `k` only instances of `F` were freed. -/
def Heap.Extends (F : List Nat) (h k : Heap) : Prop :=
  ∀ p c, p ∉ F → h.store[p]? = some c → k.store[p]? = some c

/-- The bound content of `c` and the liveness and free count of the volume
instances `c` points to are the same in `k` as in `h`. -/
def Heap.Untouched (h k : Heap) (c : Cluster) : Prop :=
  k.read c.MIV = h.read c.MIV ∧ k.read c.MSV = h.read c.MSV ∧
    ∀ p ∈ c.handles, k.live p = h.live p ∧ k.freeCount p = h.freeCount p

instance (h k : Heap) (c : Cluster) : Decidable (Heap.Untouched h k c) :=
  inferInstanceAs (Decidable (k.read c.MIV = h.read c.MIV ∧ k.read c.MSV = h.read c.MSV ∧
    ∀ p ∈ c.handles, k.live p = h.live p ∧ k.freeCount p = h.freeCount p))

/-- The clusters of a program run (object `k` is `clusters k`; objects not
yet touched are default-constructed) together with memory. -/
structure World where
  heap : Heap
  clusters : Nat → Cluster

/-- The start of a run: memory holds the mapped region and every cluster is
still as default-constructed. -/
def World.init (h0 : Heap) : World := { heap := h0, clusters := fun _ => Cluster.new }

/-- A member-function call on cluster objects: the object numbers of `*this`
and of the reference arguments; `setToSingleton k i` is the call
`setToSingleton(i, view.getMIV(i), view.getMSV(i))` on object `k`. -/
inductive Call where
  | setToSingleton (k i : Nat)
  | mergeInto (k a b : Nat)
  | addInto (k a : Nat)
  | moveInto (k a : Nat)
deriving DecidableEq

/-- Perform one call on distinct objects with valid operands, reading records
through the leaf view `v`; `none` when the objects are not distinct, an operand
is not valid, or the member function fails. -/
def exec (v : DataViewer) (w : World) : Call → Option World
  | Call.setToSingleton k i =>
    match Cluster.setToSingleton w.heap (w.clusters k) i
      (LeafViewer.getMIV v i) (LeafViewer.getMSV v i) with
    | none => none
    | some (h', c') => some { heap := h', clusters := Function.update w.clusters k c' }
  | Call.mergeInto k a b =>
    if k ≠ a ∧ k ≠ b ∧ a ≠ b ∧ (w.clusters a).isValid = true ∧ (w.clusters b).isValid = true then
      match Cluster.mergeInto w.heap (w.clusters k) (w.clusters a) (w.clusters b) with
      | none => none
      | some (h', ck, ca, cb) =>
        some { heap := h',
               clusters := Function.update
                 (Function.update (Function.update w.clusters k ck) a ca) b cb }
    else none
  | Call.addInto k a =>
    if k ≠ a ∧ (w.clusters k).isValid = true ∧ (w.clusters a).isValid = true then
      match Cluster.addInto w.heap (w.clusters k) (w.clusters a) with
      | none => none
      | some (h', ck, ca) =>
        some { heap := h', clusters := Function.update (Function.update w.clusters k ck) a ca }
    else none
  | Call.moveInto k a =>
    if k ≠ a then
      let r := Cluster.moveInto w.heap (w.clusters k) (w.clusters a)
      some { heap := r.1,
             clusters := Function.update (Function.update w.clusters k r.2.1) a r.2.2 }
    else none

/-- Every call is allowed. -/
def anyCall (_w : World) (_c : Call) : Bool := true

/-- Only calls whose `mergeInto` destination has no members are allowed. -/
def mergeIntoEmpty (w : World) : Call → Bool
  | Call.mergeInto k _ _ => (w.clusters k).indices.isEmpty
  | _ => true

/-- Perform a sequence of calls, each allowed by `P`. -/
def run (v : DataViewer) (P : World → Call → Bool) : World → List Call → Option World
  | w, [] => some w
  | w, c :: cs =>
    if P w c = true then
      match exec v w c with
      | some w' => run v P w' cs
      | none => none
    else none

/-- The voxels of leaf record `i` of the view in the mapped region `h0`. -/
def recordVoxels (v : DataViewer) (h0 : Heap) (i : Nat) : Finset Nat :=
  (h0.read (LeafViewer.getMIV v i)).getD ∅

/-- The records of the view lie in the mapped region `h0`. -/
def ViewOk (v : DataViewer) (h0 : Heap) : Prop :=
  ∀ off ∈ v.treeindices, h0.live (v.treeptr + off) = true

instance (v : DataViewer) (h0 : Heap) : Decidable (ViewOk v h0) :=
  inferInstanceAs (Decidable (∀ off ∈ v.treeindices, h0.live (v.treeptr + off) = true))

/-- The bounds of `c` describe its member list: `c` is empty with both
volumes absent, or its intersection bound holds exactly the voxels occupied by
every member's record volume and its union bound exactly the voxels occupied
by at least one member's record volume. -/
def Describes (v : DataViewer) (h0 h : Heap) (c : Cluster) : Prop :=
  (c.indices = [] ∧ c.MIV = none ∧ c.MSV = none) ∨
  ∃ vi vu, h.read c.MIV = some vi ∧ h.read c.MSV = some vu ∧
    (∀ x, x ∈ vi ↔ ∀ i ∈ c.indices, x ∈ recordVoxels v h0 i) ∧
    (∀ x, x ∈ vu ↔ ∃ i ∈ c.indices, x ∈ recordVoxels v h0 i)

/-- A mapped region with three leaf records: voxels `{0}`, `{1}` and `{1}`. -/
def exRegion : Heap := { store := [⟨{0}, 0⟩, ⟨{1}, 0⟩, ⟨{1}, 0⟩], trace := [] }

/-- A leaf view over the three records of `exRegion`. -/
def exView : DataViewer := { treeptr := 0, pointtos := [100, 101, 102], treeindices := [0, 1, 2] }

/-- Three singletons, then a merge of the second and third into the first. -/
def exCalls : List Call :=
  [Call.setToSingleton 0 0, Call.setToSingleton 1 1, Call.setToSingleton 2 2,
   Call.mergeInto 0 1 2]

/-- Two singletons merged into a default-constructed cluster, a third
singleton added into the result, and the result moved into another cluster. -/
def exCallsGated : List Call :=
  [Call.setToSingleton 1 1, Call.setToSingleton 2 2, Call.mergeInto 0 1 2,
   Call.setToSingleton 3 0, Call.addInto 0 3, Call.moveInto 4 0]

/-- The invariant of a run over the mapped region `h0`: the region is
unchanged, every cluster points to live instances outside the region that no
other cluster and no other field points to, and its bounds describe its
members. -/
structure WInv (v : DataViewer) (h0 : Heap) (w : World) : Prop where
  len_le : h0.store.length ≤ w.heap.store.length
  region : ∀ p, p < h0.store.length → w.heap.store[p]? = h0.store[p]?
  owned : ∀ k p, p ∈ (w.clusters k).handles → h0.store.length ≤ p ∧ w.heap.live p = true
  apart : ∀ k k' p, k ≠ k' → p ∈ (w.clusters k).handles → p ∉ (w.clusters k').handles
  nodup : ∀ k, (w.clusters k).handles.Nodup
  describes : ∀ k, Describes v h0 w.heap (w.clusters k)

/-- The constructor `LeafViewer(void *data, vector& treei, vector& pt)`: it
only runs the base-class constructor. -/
def LeafViewer.construct (data : Nat) (treei pt : List Nat) :
    Option (DataViewer × List Nat × List Nat) :=
  DataViewer.construct data treei pt

/-- The constructor `NodeViewer(void *data, vector& treei, vector& pt)`: it
only runs the base-class constructor. -/
def NodeViewer.construct (data : Nat) (treei pt : List Nat) :
    Option (DataViewer × List Nat × List Nat) :=
  DataViewer.construct data treei pt

/-- The member `NodeViewer::isLeaf`. -/
def NodeViewer.isLeaf (_v : DataViewer) : Bool := false

/-! ## Memory lemmas -/

theorem Heap.read_some_iff (h : Heap) (p : Nat) (v : Finset Nat) :
    h.read (some p) = some v ↔ h.store[p]? = some { content := v, frees := 0 } := by
  simp only [Heap.read]
  split
  · next c hc =>
    obtain ⟨cv, cf⟩ := c
    by_cases hf : cf = 0 <;> simp [hf, hc]
  · next hc => simp [hc]

theorem Heap.live_iff_read (h : Heap) (p : Nat) :
    h.live p = true ↔ ∃ v, h.read (some p) = some v := by
  simp only [Heap.live, Heap.read]
  split
  · next c hc => by_cases hf : c.frees = 0 <;> simp [hf]
  · simp

theorem Heap.read_lt (h : Heap) (p : Nat) (v : Finset Nat) (hr : h.read (some p) = some v) :
    p < h.store.length := by
  rw [Heap.read_some_iff] at hr
  exact (List.getElem?_eq_some.mp hr).1

theorem Heap.freeCount_of_read (h : Heap) (p : Nat) (v : Finset Nat)
    (hr : h.read (some p) = some v) : h.freeCount p = 0 := by
  rw [Heap.read_some_iff] at hr
  simp [Heap.freeCount, hr]

theorem Heap.read_push_old (h : Heap) (v w : Finset Nat) (e : Event) (p : Nat)
    (hr : h.read (some p) = some w) : (h.push v e).read (some p) = some w := by
  have hlt := h.read_lt p w hr
  rw [Heap.read_some_iff] at hr ⊢
  simp [Heap.push, List.getElem?_append_left hlt, hr]

theorem Heap.read_push_new (h : Heap) (v : Finset Nat) (e : Event) :
    (h.push v e).read (some h.store.length) = some v := by
  rw [Heap.read_some_iff]
  simp [Heap.push]

theorem Heap.read_push_of_lt (h : Heap) (v : Finset Nat) (e : Event) (p : Nat)
    (hlt : p < h.store.length) : (h.push v e).read (some p) = h.read (some p) := by
  simp [Heap.read, Heap.push, List.getElem?_append_left hlt]

theorem Heap.read_free_ne (h : Heap) (p q : Nat) (hne : p ≠ q) :
    (h.free q).read (some p) = h.read (some p) := by
  simp [Heap.read, Heap.free, List.getElem?_modify_ne _ _ (Ne.symm hne)]

theorem Heap.read_free_self (h : Heap) (p : Nat) : (h.free p).read (some p) = none := by
  unfold Heap.read Heap.free
  simp only [List.getElem?_modify_eq]
  cases h.store[p]? <;> simp

theorem Heap.freeCount_push (h : Heap) (v : Finset Nat) (e : Event) (p : Nat) :
    (h.push v e).freeCount p = h.freeCount p := by
  unfold Heap.freeCount Heap.push
  rcases Nat.lt_trichotomy p h.store.length with hlt | heq | hgt
  · simp [List.getElem?_append_left hlt]
  · subst heq; simp
  · have h1 : h.store[p]? = none := List.getElem?_eq_none (Nat.le_of_lt hgt)
    have h2 : (h.store ++ [({ content := v, frees := 0 } : Cell)])[p]? = none :=
      List.getElem?_eq_none (by simp; omega)
    simp [h1, h2]

theorem Heap.freeCount_free_ne (h : Heap) (p q : Nat) (hne : p ≠ q) :
    (h.free q).freeCount p = h.freeCount p := by
  simp [Heap.freeCount, Heap.free, List.getElem?_modify_ne _ _ (Ne.symm hne)]

theorem Heap.freeCount_free_self (h : Heap) (p : Nat) (hlt : p < h.store.length) :
    (h.free p).freeCount p = h.freeCount p + 1 := by
  unfold Heap.freeCount Heap.free
  simp only [List.getElem?_modify_eq]
  rw [List.getElem?_eq_getElem hlt]
  simp

@[simp] theorem Heap.length_push (h : Heap) (v : Finset Nat) (e : Event) :
    (h.push v e).store.length = h.store.length + 1 := by
  simp [Heap.push]

@[simp] theorem Heap.length_free (h : Heap) (p : Nat) :
    (h.free p).store.length = h.store.length := by
  simp [Heap.free]

@[simp] theorem Heap.trace_push (h : Heap) (v : Finset Nat) (e : Event) :
    (h.push v e).trace = h.trace ++ [e] := rfl

@[simp] theorem Heap.trace_free (h : Heap) (p : Nat) :
    (h.free p).trace = h.trace ++ [Event.free p] := rfl

theorem MappableOctTree.clone_eq (h : Heap) (k : Nat) (v : Finset Nat)
    (hr : h.read (some k) = some v) :
    MappableOctTree.clone h (some k)
      = some (h.push v (Event.clone k h.store.length), h.store.length) := by
  simp [MappableOctTree.clone, hr, Heap.alloc, Heap.push]

theorem MappableOctTree.createFromIntersection_eq (h : Heap) (a b : Nat) (va vb : Finset Nat)
    (ha : h.read (some a) = some va) (hb : h.read (some b) = some vb) :
    MappableOctTree.createFromIntersection h [some a, some b]
      = some (h.push (va ∩ vb) (Event.intersect [a, b] h.store.length), h.store.length) := by
  simp [MappableOctTree.createFromIntersection, Heap.readAll, ha, hb, Heap.alloc, Heap.push]

theorem MappableOctTree.createFromUnion_eq (h : Heap) (a b : Nat) (va vb : Finset Nat)
    (ha : h.read (some a) = some va) (hb : h.read (some b) = some vb) :
    MappableOctTree.createFromUnion h [some a, some b]
      = some (h.push (va ∪ vb) (Event.union [a, b] h.store.length), h.store.length) := by
  simp [MappableOctTree.createFromUnion, Heap.readAll, ha, hb, Heap.alloc, Heap.push]


theorem Heap.Extends.refl (F : List Nat) (h : Heap) : Heap.Extends F h h :=
  fun _ _ _ hc => hc

theorem Heap.Extends.trans {F : List Nat} {h k m : Heap} (h1 : Heap.Extends F h k)
    (h2 : Heap.Extends F k m) : Heap.Extends F h m :=
  fun p c hp hc => h2 p c hp (h1 p c hp hc)

theorem Heap.Extends.mono {F G : List Nat} {h k : Heap} (h1 : Heap.Extends F h k)
    (hs : ∀ p ∈ F, p ∈ G) : Heap.Extends G h k :=
  fun p c hp hc => h1 p c (fun hF => hp (hs p hF)) hc

theorem Heap.Extends.read {F : List Nat} {h k : Heap} (h1 : Heap.Extends F h k) (p : Nat)
    (v : Finset Nat) (hp : p ∉ F) (hr : h.read (some p) = some v) :
    k.read (some p) = some v := by
  rw [Heap.read_some_iff] at hr ⊢
  exact h1 p _ hp hr

theorem Heap.Extends.live {F : List Nat} {h k : Heap} (h1 : Heap.Extends F h k) (p : Nat)
    (hp : p ∉ F) (hl : h.live p = true) : k.live p = true := by
  rw [Heap.live_iff_read] at hl ⊢
  obtain ⟨v, hv⟩ := hl
  exact ⟨v, h1.read p v hp hv⟩

theorem Heap.Extends.freeCount {F : List Nat} {h k : Heap} (h1 : Heap.Extends F h k) (p : Nat)
    (hp : p ∉ F) (hlt : p < h.store.length) : k.freeCount p = h.freeCount p := by
  have hc : h.store[p]? = some h.store[p] := List.getElem?_eq_getElem hlt
  simp [Heap.freeCount, hc, h1 p _ hp hc]

theorem Heap.extends_push (F : List Nat) (h : Heap) (v : Finset Nat) (e : Event) :
    Heap.Extends F h (h.push v e) := by
  intro p c _ hc
  have hlt : p < h.store.length := (List.getElem?_eq_some.mp hc).1
  simp [Heap.push, List.getElem?_append_left hlt, hc]

theorem Heap.extends_free (F : List Nat) (h : Heap) (q : Nat) (hq : q ∈ F) :
    Heap.Extends F h (h.free q) := by
  intro p c hp hc
  have hne : q ≠ p := fun e => hp (e ▸ hq)
  simp [Heap.free, List.getElem?_modify_ne _ _ hne, hc]

theorem Heap.extends_freePtr (F : List Nat) (h : Heap) (q : Option Nat)
    (hq : ∀ p, q = some p → p ∈ F) : Heap.Extends F h (h.freePtr q) := by
  cases q with
  | none => exact Heap.Extends.refl F h
  | some p => exact Heap.extends_free F h p (hq p rfl)

@[simp] theorem Heap.length_freePtr (h : Heap) (q : Option Nat) :
    (h.freePtr q).store.length = h.store.length := by
  cases q <;> simp [Heap.freePtr]

theorem Cluster.clear_eq (h : Heap) (c : Cluster) :
    Cluster.clear h c = ((h.freePtr c.MIV).freePtr c.MSV, Cluster.new) := by
  obtain ⟨i, m, s⟩ := c
  cases m <;> cases s <;> rfl

theorem Cluster.mem_handles (c : Cluster) (p : Nat) :
    p ∈ c.handles ↔ c.MIV = some p ∨ c.MSV = some p := by
  obtain ⟨i, m, s⟩ := c
  cases m <;> cases s <;> simp [Cluster.handles, eq_comm]

theorem Cluster.clear_extends (h : Heap) (c : Cluster) :
    Heap.Extends c.handles h (Cluster.clear h c).1 := by
  rw [Cluster.clear_eq]
  exact (Heap.extends_freePtr _ h c.MIV
      (fun p hp => (c.mem_handles p).mpr (Or.inl hp))).trans
    (Heap.extends_freePtr _ _ c.MSV (fun p hp => (c.mem_handles p).mpr (Or.inr hp)))

@[simp] theorem Cluster.clear_length (h : Heap) (c : Cluster) :
    (Cluster.clear h c).1.store.length = h.store.length := by
  rw [Cluster.clear_eq]; simp

theorem Heap.Owned.pair (h : Heap) (A B : Cluster) (ho : h.Owned [A, B]) :
    ∃ p1 q1 p2 q2 v1 u1 v2 u2, A.MIV = some p1 ∧ A.MSV = some q1 ∧ B.MIV = some p2 ∧
      B.MSV = some q2 ∧ h.read (some p1) = some v1 ∧ h.read (some q1) = some u1 ∧
      h.read (some p2) = some v2 ∧ h.read (some q2) = some u2 ∧
      p1 ≠ q1 ∧ p1 ≠ p2 ∧ p1 ≠ q2 ∧ q1 ≠ p2 ∧ q1 ≠ q2 ∧ p2 ≠ q2 := by
  obtain ⟨ia, ma, sa⟩ := A
  obtain ⟨ib, mb, sb⟩ := B
  obtain ⟨hv, hn, hl⟩ := ho
  cases ma <;> cases sa <;> cases mb <;> cases sb <;>
    simp [Cluster.isValid, Cluster.handles] at hv hn hl
  next p1 q1 p2 q2 =>
  obtain ⟨l1, l2, l3, l4⟩ := hl
  obtain ⟨v1, hv1⟩ := (h.live_iff_read p1).mp l1
  obtain ⟨u1, hu1⟩ := (h.live_iff_read q1).mp l2
  obtain ⟨v2, hv2⟩ := (h.live_iff_read p2).mp l3
  obtain ⟨u2, hu2⟩ := (h.live_iff_read q2).mp l4
  exact ⟨p1, q1, p2, q2, v1, u1, v2, u2, rfl, rfl, rfl, rfl, hv1, hu1, hv2, hu2,
    by omega, by omega, by omega, by omega, by omega, by omega⟩

theorem Cluster.clear_valid (h : Heap) (i : List Nat) (p q : Nat) :
    Cluster.clear h { indices := i, MIV := some p, MSV := some q }
      = ((h.free p).free q, Cluster.new) := rfl

theorem Cluster.mergeInto_eq (h : Heap) (C : Cluster) (ia ib : List Nat)
    (p1 q1 p2 q2 : Nat) (v1 u1 v2 u2 : Finset Nat)
    (hv1 : h.read (some p1) = some v1) (hu1 : h.read (some q1) = some u1)
    (hv2 : h.read (some p2) = some v2) (hu2 : h.read (some q2) = some u2) :
    Cluster.mergeInto h C { indices := ia, MIV := some p1, MSV := some q1 }
        { indices := ib, MIV := some p2, MSV := some q2 }
      = some (((((((h.push (v1 ∩ v2) (Event.intersect [p1, p2] h.store.length)).push (u1 ∪ u2)
            (Event.union [q1, q2] (h.store.length + 1))).free p1).free q1).free p2).free q2),
          { indices := (C.indices ++ ia) ++ ib, MIV := some h.store.length,
            MSV := some (h.store.length + 1) }, Cluster.new, Cluster.new) := by
  have e1 := MappableOctTree.createFromIntersection_eq h p1 p2 v1 v2 hv1 hv2
  have e2 := MappableOctTree.createFromUnion_eq
    (h.push (v1 ∩ v2) (Event.intersect [p1, p2] h.store.length)) q1 q2 u1 u2
    (h.read_push_old _ _ _ _ hu1) (h.read_push_old _ _ _ _ hu2)
  simp only [Cluster.mergeInto, e1, e2, Cluster.clear_valid, Heap.length_push]

theorem Cluster.addInto_eq (h : Heap) (is ia : List Nat)
    (p1 q1 p2 q2 : Nat) (v1 u1 v2 u2 : Finset Nat)
    (hv1 : h.read (some p1) = some v1) (hu1 : h.read (some q1) = some u1)
    (hv2 : h.read (some p2) = some v2) (hu2 : h.read (some q2) = some u2)
    (hne1 : q1 ≠ p1) (hne2 : q2 ≠ p1) :
    Cluster.addInto h { indices := is, MIV := some p1, MSV := some q1 }
        { indices := ia, MIV := some p2, MSV := some q2 }
      = some (((((((h.push (v1 ∩ v2) (Event.intersect [p1, p2] h.store.length)).free p1).push
            (u1 ∪ u2) (Event.union [q1, q2] (h.store.length + 1))).free q1).free p2).free q2),
          { indices := is ++ ia, MIV := some h.store.length,
            MSV := some (h.store.length + 1) }, Cluster.new) := by
  have e1 := MappableOctTree.createFromIntersection_eq h p1 p2 v1 v2 hv1 hv2
  have r1 : ((h.push (v1 ∩ v2) (Event.intersect [p1, p2] h.store.length)).free p1).read (some q1)
      = some u1 := by
    rw [Heap.read_free_ne _ _ _ hne1]; exact h.read_push_old _ _ _ _ hu1
  have r2 : ((h.push (v1 ∩ v2) (Event.intersect [p1, p2] h.store.length)).free p1).read (some q2)
      = some u2 := by
    rw [Heap.read_free_ne _ _ _ hne2]; exact h.read_push_old _ _ _ _ hu2
  have e2 := MappableOctTree.createFromUnion_eq _ q1 q2 u1 u2 r1 r2
  simp only [Cluster.addInto, e1, Heap.freePtr, e2, Cluster.clear_valid, Heap.length_push,
    Heap.length_free]

theorem Cluster.setToSingleton_eq (h : Heap) (self : Cluster) (i a b : Nat) (vi vu : Finset Nat)
    (ha : a ∉ self.handles) (hb : b ∉ self.handles)
    (hvi : h.read (some a) = some vi) (hvu : h.read (some b) = some vu) :
    Cluster.setToSingleton h self i (some a) (some b)
      = some ((((Cluster.clear h self).1.push vi (Event.clone a h.store.length)).push vu
            (Event.clone b (h.store.length + 1))),
          { indices := [i], MIV := some h.store.length, MSV := some (h.store.length + 1) }) := by
  have r1 := (Cluster.clear_extends h self).read a vi ha hvi
  have r2 := (Cluster.clear_extends h self).read b vu hb hvu
  have e1 := MappableOctTree.clone_eq _ a vi r1
  have e2 := MappableOctTree.clone_eq _ b vu
    (Heap.read_push_old _ vi vu (Event.clone a (Cluster.clear h self).1.store.length) b r2)
  simp only [Cluster.clear_length] at e1 e2
  simp only [Cluster.setToSingleton, e1, Heap.length_push, Cluster.clear_length, e2]
  rfl

theorem Heap.freeCount_free (h : Heap) (p q : Nat) :
    (h.free q).freeCount p
      = if p = q ∧ p < h.store.length then h.freeCount p + 1 else h.freeCount p := by
  by_cases hpq : p = q
  · subst hpq
    by_cases hlt : p < h.store.length
    · simp [hlt, Heap.freeCount_free_self]
    · have h1 : h.store[p]? = none := List.getElem?_eq_none (Nat.le_of_not_lt hlt)
      simp [hlt, Heap.freeCount, Heap.free, h1]
  · simp [hpq, Heap.freeCount_free_ne _ _ _ hpq]

theorem Cluster.copy_summary (h : Heap) (C : Cluster)
    (hl : ∀ p ∈ C.handles, h.live p = true) :
    ∃ h' D, Cluster.copy h C = some (h', D) ∧ D.indices = C.indices ∧
      h'.read D.MIV = h.read C.MIV ∧ h'.read D.MSV = h.read C.MSV ∧
      D.MIV.isSome = C.MIV.isSome ∧ D.MSV.isSome = C.MSV.isSome ∧
      (∀ p ∈ D.handles, h.store.length ≤ p ∧ h'.live p = true) ∧ D.handles.Nodup ∧
      Heap.Extends [] h h' ∧ (∀ p, Event.free p ∈ h'.trace → Event.free p ∈ h.trace) := by
  obtain ⟨i, m, s⟩ := C
  cases m with
  | none =>
    cases s with
    | none =>
      exact ⟨h, _, rfl, rfl, rfl, rfl, rfl, rfl, by simp [Cluster.handles],
        by simp [Cluster.handles], Heap.Extends.refl _ _, fun _ hp => hp⟩
    | some q =>
      obtain ⟨u, hu⟩ := (h.live_iff_read q).mp (hl q (by simp [Cluster.handles]))
      have e := MappableOctTree.clone_eq h q u hu
      have hn := Heap.read_push_new h u (Event.clone q h.store.length)
      refine ⟨h.push u (Event.clone q h.store.length),
        { indices := i, MIV := none, MSV := some h.store.length },
        by simp only [Cluster.copy, e, Option.map_some'], rfl, rfl, ?_, rfl, rfl,
        ?_, by simp [Cluster.handles], Heap.extends_push _ _ _ _, by simp⟩
      · simp only [hn, hu]
      · simp only [Cluster.handles, Option.toList, List.nil_append, List.mem_singleton]
        rintro p rfl
        exact ⟨Nat.le_refl _, (Heap.live_iff_read _ _).mpr ⟨u, hn⟩⟩
  | some p =>
    obtain ⟨v, hv⟩ := (h.live_iff_read p).mp (hl p (by simp [Cluster.handles]))
    have e := MappableOctTree.clone_eq h p v hv
    have hn := Heap.read_push_new h v (Event.clone p h.store.length)
    cases s with
    | none =>
      refine ⟨h.push v (Event.clone p h.store.length),
        { indices := i, MIV := some h.store.length, MSV := none },
        by simp only [Cluster.copy, e, Option.map_some'], rfl, ?_, rfl, rfl, rfl,
        ?_, by simp [Cluster.handles], Heap.extends_push _ _ _ _, by simp⟩
      · simp only [hn, hv]
      · simp only [Cluster.handles, Option.toList, List.append_nil, List.mem_singleton]
        rintro p rfl
        exact ⟨Nat.le_refl _, (Heap.live_iff_read _ _).mpr ⟨v, hn⟩⟩
    | some q =>
      obtain ⟨u, hu⟩ := (h.live_iff_read q).mp (hl q (by simp [Cluster.handles]))
      have hu1 := Heap.read_push_old h v u (Event.clone p h.store.length) q hu
      have e2 := MappableOctTree.clone_eq _ q u hu1
      have hn2 := Heap.read_push_new (h.push v (Event.clone p h.store.length)) u
        (Event.clone q (h.store.length + 1))
      have hn1 := Heap.read_push_old (h.push v (Event.clone p h.store.length)) u v
        (Event.clone q (h.store.length + 1)) _ hn
      simp only [Heap.length_push] at e2 hn2
      refine ⟨(h.push v (Event.clone p h.store.length)).push u
          (Event.clone q (h.store.length + 1)),
        { indices := i, MIV := some h.store.length, MSV := some (h.store.length + 1) },
        by simp only [Cluster.copy, e, Option.map_some', e2], rfl, ?_, ?_,
        rfl, rfl, ?_, by simp [Cluster.handles],
        (Heap.extends_push _ _ _ _).trans (Heap.extends_push _ _ _ _), by simp⟩
      · simp only [hn1, hv]
      · simp only [hn2, hu]
      · simp only [Cluster.handles, Option.toList, List.singleton_append, List.mem_cons,
          List.mem_singleton, List.not_mem_nil, or_false]
        rintro x (rfl | rfl)
        · exact ⟨Nat.le_refl _, (Heap.live_iff_read _ _).mpr ⟨v, hn1⟩⟩
        · exact ⟨Nat.le_succ _, (Heap.live_iff_read _ _).mpr ⟨u, hn2⟩⟩

theorem Heap.live_lt (h : Heap) (p : Nat) (hl : h.live p = true) : p < h.store.length := by
  obtain ⟨v, hv⟩ := (h.live_iff_read p).mp hl
  exact h.read_lt p v hv

theorem Heap.Extends.untouched {F : List Nat} {h k : Heap} (h1 : Heap.Extends F h k)
    (c : Cluster) (hF : ∀ p ∈ c.handles, p ∉ F) (hl : ∀ p ∈ c.handles, h.live p = true) :
    Heap.Untouched h k c := by
  have key : ∀ q : Option Nat, (∀ p, q = some p → p ∈ c.handles) → k.read q = h.read q := by
    intro q hq
    cases q with
    | none => rfl
    | some p =>
      obtain ⟨v, hv⟩ := (h.live_iff_read p).mp (hl p (hq p rfl))
      rw [hv]
      exact h1.read p v (hF p (hq p rfl)) hv
  refine ⟨key c.MIV (fun p hp => (c.mem_handles p).mpr (Or.inl hp)),
    key c.MSV (fun p hp => (c.mem_handles p).mpr (Or.inr hp)), fun p hp => ⟨?_, ?_⟩⟩
  · rw [hl p hp]; exact h1.live p (hF p hp) (hl p hp)
  · exact h1.freeCount p (hF p hp) (h.live_lt p (hl p hp))

theorem MappableOctTree.clone_extends (F : List Nat) (h k : Heap) (p : Option Nat) (n : Nat)
    (he : MappableOctTree.clone h p = some (k, n)) : Heap.Extends F h k := by
  unfold MappableOctTree.clone at he
  split at he
  · simp only [Option.some.injEq, Prod.mk.injEq] at he
    rw [← he.1]
    exact Heap.extends_push F h _ _
  · cases he

theorem MappableOctTree.createFromIntersection_extends (F : List Nat) (h k : Heap)
    (arr : List (Option Nat)) (n : Nat)
    (he : MappableOctTree.createFromIntersection h arr = some (k, n)) : Heap.Extends F h k := by
  unfold MappableOctTree.createFromIntersection at he
  split at he
  · simp only [Option.some.injEq, Prod.mk.injEq] at he
    rw [← he.1]
    exact Heap.extends_push F h _ _
  · cases he

theorem MappableOctTree.createFromUnion_extends (F : List Nat) (h k : Heap)
    (arr : List (Option Nat)) (n : Nat)
    (he : MappableOctTree.createFromUnion h arr = some (k, n)) : Heap.Extends F h k := by
  unfold MappableOctTree.createFromUnion at he
  split at he
  · simp only [Option.some.injEq, Prod.mk.injEq] at he
    rw [← he.1]
    exact Heap.extends_push F h _ _
  · cases he

theorem Cluster.setToSingleton_extends (h k : Heap) (self c : Cluster) (d : Nat)
    (iv uv : Option Nat) (he : Cluster.setToSingleton h self d iv uv = some (k, c)) :
    Heap.Extends self.handles h k := by
  unfold Cluster.setToSingleton at he
  simp only at he
  split at he
  · cases he
  · next h1 p e1 =>
    split at he
    · cases he
    · next h2 q e2 =>
      simp only [Option.some.injEq, Prod.mk.injEq] at he
      rw [← he.1]
      exact ((Cluster.clear_extends h self).trans
        (MappableOctTree.clone_extends _ _ _ _ _ e1)).trans
        (MappableOctTree.clone_extends _ _ _ _ _ e2)

theorem Cluster.addInto_extends (h k : Heap) (S A S' A' : Cluster)
    (he : Cluster.addInto h S A = some (k, S', A')) :
    Heap.Extends (S.handles ++ A.handles) h k := by
  unfold Cluster.addInto at he
  simp only at he
  split at he
  · cases he
  · next h1 p e1 =>
    split at he
    · cases he
    · next h3 q e2 =>
      simp only [Option.some.injEq, Prod.mk.injEq] at he
      rw [← he.1]
      have hS1 : ∀ x, S.MIV = some x → x ∈ S.handles ++ A.handles :=
        fun x hx => List.mem_append_left _ ((S.mem_handles x).mpr (Or.inl hx))
      have hS2 : ∀ x, S.MSV = some x → x ∈ S.handles ++ A.handles :=
        fun x hx => List.mem_append_left _ ((S.mem_handles x).mpr (Or.inr hx))
      exact ((((MappableOctTree.createFromIntersection_extends _ _ _ _ _ e1).trans
        (Heap.extends_freePtr _ _ _ hS1)).trans
        (MappableOctTree.createFromUnion_extends _ _ _ _ _ e2)).trans
        (Heap.extends_freePtr _ _ _ hS2)).trans
        ((Cluster.clear_extends _ A).mono (fun x hx => List.mem_append_right _ hx))

theorem Cluster.mergeInto_extends (h k : Heap) (C A B C' A' B' : Cluster)
    (he : Cluster.mergeInto h C A B = some (k, C', A', B')) :
    Heap.Extends (A.handles ++ B.handles) h k := by
  unfold Cluster.mergeInto at he
  simp only at he
  split at he
  · cases he
  · next h1 p e1 =>
    split at he
    · cases he
    · next h2 q e2 =>
      simp only [Option.some.injEq, Prod.mk.injEq] at he
      rw [← he.1]
      exact (((MappableOctTree.createFromIntersection_extends _ _ _ _ _ e1).trans
        (MappableOctTree.createFromUnion_extends _ _ _ _ _ e2)).trans
        ((Cluster.clear_extends _ A).mono (fun x hx => List.mem_append_left _ hx))).trans
        ((Cluster.clear_extends _ B).mono (fun x hx => List.mem_append_right _ hx))

theorem Cluster.new_inv : Cluster.new.Inv := by decide

theorem Cluster.mergeInto_reads (h : Heap) (p1 q1 p2 q2 : Nat) (v u : Finset Nat)
    (e1 e2 : Event) (l1 : p1 < h.store.length) (l2 : q1 < h.store.length)
    (l3 : p2 < h.store.length) (l4 : q2 < h.store.length) :
    ((((((h.push v e1).push u e2).free p1).free q1).free p2).free q2).read
        (some h.store.length) = some v ∧
    ((((((h.push v e1).push u e2).free p1).free q1).free p2).free q2).read
        (some (h.store.length + 1)) = some u := by
  constructor
  · rw [Heap.read_free_ne _ _ _ (by omega), Heap.read_free_ne _ _ _ (by omega),
      Heap.read_free_ne _ _ _ (by omega), Heap.read_free_ne _ _ _ (by omega)]
    exact Heap.read_push_old _ _ _ _ _ (Heap.read_push_new _ _ _)
  · rw [Heap.read_free_ne _ _ _ (by omega), Heap.read_free_ne _ _ _ (by omega),
      Heap.read_free_ne _ _ _ (by omega), Heap.read_free_ne _ _ _ (by omega)]
    have := Heap.read_push_new (h.push v e1) u e2
    simpa using this

theorem Cluster.addInto_reads (h : Heap) (p1 q1 p2 q2 : Nat) (v u : Finset Nat)
    (e1 e2 : Event) (l1 : p1 < h.store.length) (l2 : q1 < h.store.length)
    (l3 : p2 < h.store.length) (l4 : q2 < h.store.length) :
    ((((((h.push v e1).free p1).push u e2).free q1).free p2).free q2).read
        (some h.store.length) = some v ∧
    ((((((h.push v e1).free p1).push u e2).free q1).free p2).free q2).read
        (some (h.store.length + 1)) = some u := by
  constructor
  · rw [Heap.read_free_ne _ _ _ (by omega), Heap.read_free_ne _ _ _ (by omega),
      Heap.read_free_ne _ _ _ (by omega)]
    apply Heap.read_push_old
    rw [Heap.read_free_ne _ _ _ (by omega)]
    exact Heap.read_push_new _ _ _
  · rw [Heap.read_free_ne _ _ _ (by omega), Heap.read_free_ne _ _ _ (by omega),
      Heap.read_free_ne _ _ _ (by omega)]
    have := Heap.read_push_new ((h.push v e1).free p1) u e2
    simpa using this

theorem Cluster.setToSingleton_reads (h : Heap) (self : Cluster) (v u : Finset Nat)
    (e1 e2 : Event) :
    (((Cluster.clear h self).1.push v e1).push u e2).read (some h.store.length) = some v ∧
    (((Cluster.clear h self).1.push v e1).push u e2).read (some (h.store.length + 1))
      = some u := by
  constructor
  · apply Heap.read_push_old
    have := Heap.read_push_new (Cluster.clear h self).1 v e1
    simpa using this
  · have := Heap.read_push_new ((Cluster.clear h self).1.push v e1) u e2
    simpa using this

theorem Describes.frame (v : DataViewer) (h0 h k : Heap) (c : Cluster)
    (hm : k.read c.MIV = h.read c.MIV) (hs : k.read c.MSV = h.read c.MSV)
    (hd : Describes v h0 h c) : Describes v h0 k c := by
  rcases hd with hd | ⟨vi, vu, h1, h2, h3, h4⟩
  · exact Or.inl hd
  · exact Or.inr ⟨vi, vu, hm.trans h1, hs.trans h2, h3, h4⟩

theorem Describes.new (v : DataViewer) (h0 h : Heap) : Describes v h0 h Cluster.new :=
  Or.inl ⟨rfl, rfl, rfl⟩

theorem WInv.init (v : DataViewer) (h0 : Heap) : WInv v h0 (World.init h0) where
  len_le := Nat.le_refl _
  region := fun _ _ => rfl
  owned := fun k p hp => by simp [World.init, Cluster.new, Cluster.handles] at hp
  apart := fun k k' p _ hp => by simp [World.init, Cluster.new, Cluster.handles] at hp
  nodup := fun k => by simp [World.init, Cluster.new, Cluster.handles]
  describes := fun k => Describes.new v h0 h0

theorem WInv.step_fresh {v : DataViewer} {h0 : Heap} {w : World} (hw : WInv v h0 w)
    (h' : Heap) (cl' : Nat → Cluster) (k : Nat) (F : List Nat)
    (hF : ∀ p ∈ F, h0.store.length ≤ p)
    (hext : Heap.Extends F w.heap h')
    (hlen : w.heap.store.length ≤ h'.store.length)
    (hkf : ∀ p ∈ (cl' k).handles, w.heap.store.length ≤ p ∧ h'.live p = true)
    (hkn : (cl' k).handles.Nodup)
    (hkd : Describes v h0 h' (cl' k))
    (hoth : ∀ j, j ≠ k → cl' j = Cluster.new ∨
      (cl' j = w.clusters j ∧ ∀ p ∈ (w.clusters j).handles, p ∉ F)) :
    WInv v h0 { heap := h', clusters := cl' } := by
  have hnew : ∀ p, p ∉ Cluster.new.handles := fun p hp => by
    simp [Cluster.new, Cluster.handles] at hp
  have hold : ∀ j, j ≠ k → ∀ p ∈ (cl' j).handles,
      p ∈ (w.clusters j).handles ∧ p ∉ F ∧ p < w.heap.store.length := by
    intro j hj p hp
    rcases hoth j hj with e | ⟨e, hd⟩
    · rw [e] at hp; exact absurd hp (hnew p)
    · rw [e] at hp
      exact ⟨hp, hd p hp, w.heap.live_lt p (hw.owned j p hp).2⟩
  refine ⟨Nat.le_trans hw.len_le hlen, ?_, ?_, ?_, ?_, ?_⟩
  · intro p hp
    have hc : h0.store[p]? = some h0.store[p] := List.getElem?_eq_getElem hp
    rw [hc]
    exact hext p _ (fun hm => by have := hF p hm; omega) ((hw.region p hp).trans hc)
  · intro j p hp
    by_cases hj : j = k
    · subst hj
      exact ⟨Nat.le_trans hw.len_le (hkf p hp).1, (hkf p hp).2⟩
    · obtain ⟨h1, h2, -⟩ := hold j hj p hp
      exact ⟨(hw.owned j p h1).1, hext.live p h2 (hw.owned j p h1).2⟩
  · intro j1 j2 p hne hp1 hp2
    by_cases hj1 : j1 = k
    · subst hj1
      have := (hkf p hp1).1
      have := (hold j2 (Ne.symm hne) p hp2).2.2
      omega
    · by_cases hj2 : j2 = k
      · subst hj2
        have := (hkf p hp2).1
        have := (hold j1 hj1 p hp1).2.2
        omega
      · exact hw.apart j1 j2 p hne (hold j1 hj1 p hp1).1 (hold j2 hj2 p hp2).1
  · intro j
    by_cases hj : j = k
    · subst hj; exact hkn
    · show (cl' j).handles.Nodup
      rcases hoth j hj with e | ⟨e, -⟩
      · rw [e]; simp [Cluster.new, Cluster.handles]
      · rw [e]; exact hw.nodup j
  · intro j
    by_cases hj : j = k
    · subst hj; exact hkd
    · show Describes v h0 h' (cl' j)
      rcases hoth j hj with e | ⟨e, hd⟩
      · rw [e]; exact Describes.new v h0 h'
      · rw [e]
        have hu := hext.untouched (w.clusters j) hd (fun p hp => (hw.owned j p hp).2)
        exact Describes.frame v h0 w.heap h' _ hu.1 hu.2.1 (hw.describes j)

theorem Cluster.isValid_iff (c : Cluster) :
    c.isValid = true ↔ ∃ p q, c.MIV = some p ∧ c.MSV = some q := by
  obtain ⟨i, m, s⟩ := c
  cases m <;> cases s <;> simp [Cluster.isValid]

theorem Cluster.handles_of (c : Cluster) (p q : Nat) (hm : c.MIV = some p)
    (hs : c.MSV = some q) : c.handles = [p, q] := by
  simp [Cluster.handles, hm, hs]

theorem Describes.reads {v : DataViewer} {h0 h : Heap} {c : Cluster}
    (hd : Describes v h0 h c) (p : Nat) (hm : c.MIV = some p) :
    ∃ vi vu, h.read c.MIV = some vi ∧ h.read c.MSV = some vu ∧
      (∀ x, x ∈ vi ↔ ∀ i ∈ c.indices, x ∈ recordVoxels v h0 i) ∧
      (∀ x, x ∈ vu ↔ ∃ i ∈ c.indices, x ∈ recordVoxels v h0 i) := by
  rcases hd with ⟨-, hn, -⟩ | hd
  · rw [hn] at hm; cases hm
  · exact hd

theorem Cluster.mergeInto_eq_of (h : Heap) (C A B : Cluster)
    (p1 q1 p2 q2 : Nat) (v1 u1 v2 u2 : Finset Nat)
    (hA1 : A.MIV = some p1) (hA2 : A.MSV = some q1)
    (hB1 : B.MIV = some p2) (hB2 : B.MSV = some q2)
    (hv1 : h.read (some p1) = some v1) (hu1 : h.read (some q1) = some u1)
    (hv2 : h.read (some p2) = some v2) (hu2 : h.read (some q2) = some u2) :
    Cluster.mergeInto h C A B
      = some (((((((h.push (v1 ∩ v2) (Event.intersect [p1, p2] h.store.length)).push (u1 ∪ u2)
            (Event.union [q1, q2] (h.store.length + 1))).free p1).free q1).free p2).free q2),
          { indices := (C.indices ++ A.indices) ++ B.indices, MIV := some h.store.length,
            MSV := some (h.store.length + 1) }, Cluster.new, Cluster.new) := by
  obtain ⟨ia, ma, sa⟩ := A
  obtain ⟨ib, mb, sb⟩ := B
  simp only at hA1 hA2 hB1 hB2
  subst hA1 hA2 hB1 hB2
  exact Cluster.mergeInto_eq h C ia ib p1 q1 p2 q2 v1 u1 v2 u2 hv1 hu1 hv2 hu2

theorem Cluster.addInto_eq_of (h : Heap) (S A : Cluster)
    (p1 q1 p2 q2 : Nat) (v1 u1 v2 u2 : Finset Nat)
    (hS1 : S.MIV = some p1) (hS2 : S.MSV = some q1)
    (hA1 : A.MIV = some p2) (hA2 : A.MSV = some q2)
    (hv1 : h.read (some p1) = some v1) (hu1 : h.read (some q1) = some u1)
    (hv2 : h.read (some p2) = some v2) (hu2 : h.read (some q2) = some u2)
    (hne1 : q1 ≠ p1) (hne2 : q2 ≠ p1) :
    Cluster.addInto h S A
      = some (((((((h.push (v1 ∩ v2) (Event.intersect [p1, p2] h.store.length)).free p1).push
            (u1 ∪ u2) (Event.union [q1, q2] (h.store.length + 1))).free q1).free p2).free q2),
          { indices := S.indices ++ A.indices, MIV := some h.store.length,
            MSV := some (h.store.length + 1) }, Cluster.new) := by
  obtain ⟨is, ms, ss⟩ := S
  obtain ⟨ia, ma, sa⟩ := A
  simp only at hS1 hS2 hA1 hA2
  subst hS1 hS2 hA1 hA2
  exact Cluster.addInto_eq h is ia p1 q1 p2 q2 v1 u1 v2 u2 hv1 hu1 hv2 hu2 hne1 hne2

theorem WInv.step_move {v : DataViewer} {h0 : Heap} {w : World} (hw : WInv v h0 w)
    (k a : Nat) :
    WInv v h0 { heap := w.heap,
                clusters := Function.update (Function.update w.clusters k (w.clusters a))
                  a Cluster.new } := by
  have hcl : ∀ j, Function.update (Function.update w.clusters k (w.clusters a)) a Cluster.new j
      = if j = a then Cluster.new else if j = k then w.clusters a else w.clusters j := by
    intro j
    by_cases h1 : j = a
    · rw [if_pos h1, h1, Function.update_same]
    · rw [if_neg h1, Function.update_noteq h1]
      by_cases h2 : j = k
      · rw [if_pos h2, h2, Function.update_same]
      · rw [if_neg h2, Function.update_noteq h2]
  have hsrc : ∀ j p, p ∈ (Function.update (Function.update w.clusters k (w.clusters a))
      a Cluster.new j).handles →
      j ≠ a ∧ p ∈ (w.clusters (if j = k then a else j)).handles := by
    intro j p hp
    rw [hcl j] at hp
    by_cases h1 : j = a
    · rw [if_pos h1] at hp
      simp [Cluster.new, Cluster.handles] at hp
    · rw [if_neg h1] at hp
      by_cases h2 : j = k
      · rw [if_pos h2] at hp ⊢
        exact ⟨h1, hp⟩
      · rw [if_neg h2] at hp ⊢
        exact ⟨h1, hp⟩
  refine ⟨hw.len_le, hw.region, ?_, ?_, ?_, ?_⟩
  · intro j p hp
    exact hw.owned _ p (hsrc j p hp).2
  · intro j1 j2 p hne hp1 hp2
    obtain ⟨n1, s1⟩ := hsrc j1 p hp1
    obtain ⟨n2, s2⟩ := hsrc j2 p hp2
    refine hw.apart _ _ p ?_ s1 s2
    by_cases h1 : j1 = k <;> by_cases h2 : j2 = k <;> simp only [h1, h2, if_true, if_false]
    · exact fun _ => hne (h1.trans h2.symm)
    · exact fun h => n2 h.symm
    · exact n1
    · exact hne
  · intro j
    show (Function.update (Function.update w.clusters k (w.clusters a)) a Cluster.new
      j).handles.Nodup
    rw [hcl j]
    by_cases h1 : j = a
    · rw [if_pos h1]; simp [Cluster.new, Cluster.handles]
    · rw [if_neg h1]
      by_cases h2 : j = k
      · rw [if_pos h2]; exact hw.nodup a
      · rw [if_neg h2]; exact hw.nodup j
  · intro j
    show Describes v h0 w.heap
      (Function.update (Function.update w.clusters k (w.clusters a)) a Cluster.new j)
    rw [hcl j]
    by_cases h1 : j = a
    · rw [if_pos h1]; exact Describes.new v h0 w.heap
    · rw [if_neg h1]
      by_cases h2 : j = k
      · rw [if_pos h2]; exact hw.describes a
      · rw [if_neg h2]; exact hw.describes j

theorem WInv.step_setToSingleton {v : DataViewer} {h0 : Heap} {w w' : World}
    (hv : ViewOk v h0) (hw : WInv v h0 w) (k i : Nat)
    (he : exec v w (Call.setToSingleton k i) = some w') : WInv v h0 w' := by
  cases hoff : v.treeindices[i]? with
  | none =>
    simp [exec, LeafViewer.getMIV, hoff, Cluster.setToSingleton, MappableOctTree.clone] at he
  | some off =>
    have hlive := hv off (List.getElem?_mem hoff)
    obtain ⟨vi, hvi0⟩ := (h0.live_iff_read _).mp hlive
    have hlt := h0.read_lt _ vi hvi0
    have hvi : w.heap.read (some (v.treeptr + off)) = some vi := by
      rw [Heap.read_some_iff] at hvi0 ⊢
      rw [hw.region _ hlt]; exact hvi0
    have ha : v.treeptr + off ∉ (w.clusters k).handles := fun hm => by
      have := (hw.owned k _ hm).1
      omega
    have heq := Cluster.setToSingleton_eq w.heap (w.clusters k) i _ _ vi vi ha ha hvi hvi
    simp only [exec, LeafViewer.getMIV, LeafViewer.getMSV, hoff, Option.map_some', heq,
      Option.some.injEq] at he
    subst he
    obtain ⟨r1, r2⟩ := Cluster.setToSingleton_reads w.heap (w.clusters k) vi vi
      (Event.clone (v.treeptr + off) w.heap.store.length)
      (Event.clone (v.treeptr + off) (w.heap.store.length + 1))
    refine hw.step_fresh _ _ k (w.clusters k).handles (fun p hp => (hw.owned k p hp).1)
      (Cluster.setToSingleton_extends _ _ _ _ _ _ _ heq)
      (by simp only [Heap.length_push, Cluster.clear_length]; omega) ?_ ?_ ?_ ?_
    · intro p hp
      simp only [Function.update_same, Cluster.handles, Option.toList, List.singleton_append,
        List.mem_cons, List.mem_singleton, List.not_mem_nil, or_false] at hp
      rcases hp with rfl | rfl
      · exact ⟨Nat.le_refl _, (Heap.live_iff_read _ _).mpr ⟨vi, r1⟩⟩
      · exact ⟨Nat.le_succ _, (Heap.live_iff_read _ _).mpr ⟨vi, r2⟩⟩
    · simp [Cluster.handles]
    · rw [Function.update_same]
      refine Or.inr ⟨vi, vi, r1, r2, ?_, ?_⟩ <;>
        simp [recordVoxels, LeafViewer.getMIV, hoff, hvi0]
    · intro j hj
      exact Or.inr ⟨Function.update_noteq hj _ _, fun p hp hF => hw.apart j k p hj hp hF⟩

theorem WInv.step_mergeInto {v : DataViewer} {h0 : Heap} {w w' : World}
    (hw : WInv v h0 w) (k a b : Nat) (hempty : (w.clusters k).indices = [])
    (he : exec v w (Call.mergeInto k a b) = some w') : WInv v h0 w' := by
  simp only [exec] at he
  split at he
  swap
  · cases he
  next hc =>
  obtain ⟨hka, hkb, hab, hva, hvb⟩ := hc
  obtain ⟨p1, q1, hA1, hA2⟩ := (Cluster.isValid_iff _).mp hva
  obtain ⟨p2, q2, hB1, hB2⟩ := (Cluster.isValid_iff _).mp hvb
  obtain ⟨v1, u1, hv1, hu1, cA1, cA2⟩ := (hw.describes a).reads p1 hA1
  obtain ⟨v2, u2, hv2, hu2, cB1, cB2⟩ := (hw.describes b).reads p2 hB1
  rw [hA1] at hv1; rw [hA2] at hu1; rw [hB1] at hv2; rw [hB2] at hu2
  have heq := Cluster.mergeInto_eq_of w.heap (w.clusters k) (w.clusters a) (w.clusters b)
    p1 q1 p2 q2 v1 u1 v2 u2 hA1 hA2 hB1 hB2 hv1 hu1 hv2 hu2
  have hext := Cluster.mergeInto_extends _ _ _ _ _ _ _ _ heq
  rw [heq] at he
  simp only [Option.some.injEq] at he
  subst he
  obtain ⟨r1, r2⟩ := Cluster.mergeInto_reads w.heap p1 q1 p2 q2 (v1 ∩ v2) (u1 ∪ u2)
    (Event.intersect [p1, p2] w.heap.store.length)
    (Event.union [q1, q2] (w.heap.store.length + 1))
    (w.heap.read_lt _ _ hv1) (w.heap.read_lt _ _ hu1) (w.heap.read_lt _ _ hv2)
    (w.heap.read_lt _ _ hu2)
  have hk : Function.update (Function.update (Function.update w.clusters k
      ({ indices := ((w.clusters k).indices ++ (w.clusters a).indices) ++ (w.clusters b).indices,
         MIV := some w.heap.store.length, MSV := some (w.heap.store.length + 1) } : Cluster))
        a Cluster.new) b Cluster.new k
      = { indices := ((w.clusters k).indices ++ (w.clusters a).indices) ++ (w.clusters b).indices,
          MIV := some w.heap.store.length, MSV := some (w.heap.store.length + 1) } := by
    rw [Function.update_noteq hkb, Function.update_noteq hka, Function.update_same]
  refine hw.step_fresh _ _ k ((w.clusters a).handles ++ (w.clusters b).handles) ?_ hext
    (by simp only [Heap.length_push, Heap.length_free]; omega) ?_ ?_ ?_ ?_
  · intro p hp
    rcases List.mem_append.mp hp with hp | hp
    · exact (hw.owned a p hp).1
    · exact (hw.owned b p hp).1
  · intro p hp
    rw [hk] at hp
    simp only [Cluster.handles, Option.toList, List.singleton_append,
      List.mem_cons, List.mem_singleton, List.not_mem_nil, or_false] at hp
    rcases hp with rfl | rfl
    · exact ⟨Nat.le_refl _, (Heap.live_iff_read _ _).mpr ⟨_, r1⟩⟩
    · exact ⟨Nat.le_succ _, (Heap.live_iff_read _ _).mpr ⟨_, r2⟩⟩
  · rw [hk]; simp [Cluster.handles]
  · rw [hk]
    refine Or.inr ⟨v1 ∩ v2, u1 ∪ u2, r1, r2, ?_, ?_⟩
    · intro x
      simp only [hempty, List.nil_append, Finset.mem_inter, cA1 x, cB1 x, List.mem_append]
      constructor
      · rintro ⟨h1, h2⟩ i (hi | hi)
        · exact h1 i hi
        · exact h2 i hi
      · intro h
        exact ⟨fun i hi => h i (Or.inl hi), fun i hi => h i (Or.inr hi)⟩
    · intro x
      simp only [hempty, List.nil_append, Finset.mem_union, cA2 x, cB2 x, List.mem_append]
      constructor
      · rintro (⟨i, hi, hx⟩ | ⟨i, hi, hx⟩)
        · exact ⟨i, Or.inl hi, hx⟩
        · exact ⟨i, Or.inr hi, hx⟩
      · rintro ⟨i, hi | hi, hx⟩
        · exact Or.inl ⟨i, hi, hx⟩
        · exact Or.inr ⟨i, hi, hx⟩
  · intro j hj
    by_cases hjb : j = b
    · left; rw [hjb, Function.update_same]
    · by_cases hja : j = a
      · left; rw [Function.update_noteq hjb, hja, Function.update_same]
      · right
        refine ⟨by rw [Function.update_noteq hjb, Function.update_noteq hja,
          Function.update_noteq hj], fun p hp hF => ?_⟩
        rcases List.mem_append.mp hF with hF | hF
        · exact hw.apart j a p hja hp hF
        · exact hw.apart j b p hjb hp hF

theorem WInv.step_addInto {v : DataViewer} {h0 : Heap} {w w' : World}
    (hw : WInv v h0 w) (k a : Nat)
    (he : exec v w (Call.addInto k a) = some w') : WInv v h0 w' := by
  simp only [exec] at he
  split at he
  swap
  · cases he
  next hc =>
  obtain ⟨hka, hvk, hva⟩ := hc
  obtain ⟨p1, q1, hS1, hS2⟩ := (Cluster.isValid_iff _).mp hvk
  obtain ⟨p2, q2, hA1, hA2⟩ := (Cluster.isValid_iff _).mp hva
  obtain ⟨v1, u1, hv1, hu1, cS1, cS2⟩ := (hw.describes k).reads p1 hS1
  obtain ⟨v2, u2, hv2, hu2, cA1, cA2⟩ := (hw.describes a).reads p2 hA1
  rw [hS1] at hv1; rw [hS2] at hu1; rw [hA1] at hv2; rw [hA2] at hu2
  have hne1 : q1 ≠ p1 := by
    have := hw.nodup k
    rw [Cluster.handles_of _ p1 q1 hS1 hS2] at this
    simp at this
    exact fun h => this h.symm
  have hne2 : q2 ≠ p1 := fun h => by
    refine hw.apart k a p1 hka ((Cluster.mem_handles _ _).mpr (Or.inl hS1)) ?_
    exact (Cluster.mem_handles _ _).mpr (Or.inr (h ▸ hA2))
  have heq := Cluster.addInto_eq_of w.heap (w.clusters k) (w.clusters a)
    p1 q1 p2 q2 v1 u1 v2 u2 hS1 hS2 hA1 hA2 hv1 hu1 hv2 hu2 hne1 hne2
  have hext := Cluster.addInto_extends _ _ _ _ _ _ heq
  rw [heq] at he
  simp only [Option.some.injEq] at he
  subst he
  obtain ⟨r1, r2⟩ := Cluster.addInto_reads w.heap p1 q1 p2 q2 (v1 ∩ v2) (u1 ∪ u2)
    (Event.intersect [p1, p2] w.heap.store.length)
    (Event.union [q1, q2] (w.heap.store.length + 1))
    (w.heap.read_lt _ _ hv1) (w.heap.read_lt _ _ hu1) (w.heap.read_lt _ _ hv2)
    (w.heap.read_lt _ _ hu2)
  have hk : Function.update (Function.update w.clusters k
      ({ indices := (w.clusters k).indices ++ (w.clusters a).indices,
         MIV := some w.heap.store.length, MSV := some (w.heap.store.length + 1) } : Cluster))
        a Cluster.new k
      = { indices := (w.clusters k).indices ++ (w.clusters a).indices,
          MIV := some w.heap.store.length, MSV := some (w.heap.store.length + 1) } := by
    rw [Function.update_noteq hka, Function.update_same]
  refine hw.step_fresh _ _ k ((w.clusters k).handles ++ (w.clusters a).handles) ?_ hext
    (by simp only [Heap.length_push, Heap.length_free]; omega) ?_ ?_ ?_ ?_
  · intro p hp
    rcases List.mem_append.mp hp with hp | hp
    · exact (hw.owned k p hp).1
    · exact (hw.owned a p hp).1
  · intro p hp
    rw [hk] at hp
    simp only [Cluster.handles, Option.toList, List.singleton_append,
      List.mem_cons, List.mem_singleton, List.not_mem_nil, or_false] at hp
    rcases hp with rfl | rfl
    · exact ⟨Nat.le_refl _, (Heap.live_iff_read _ _).mpr ⟨_, r1⟩⟩
    · exact ⟨Nat.le_succ _, (Heap.live_iff_read _ _).mpr ⟨_, r2⟩⟩
  · rw [hk]; simp [Cluster.handles]
  · rw [hk]
    refine Or.inr ⟨v1 ∩ v2, u1 ∪ u2, r1, r2, ?_, ?_⟩
    · intro x
      simp only [Finset.mem_inter, cS1 x, cA1 x, List.mem_append]
      constructor
      · rintro ⟨h1, h2⟩ i (hi | hi)
        · exact h1 i hi
        · exact h2 i hi
      · intro h
        exact ⟨fun i hi => h i (Or.inl hi), fun i hi => h i (Or.inr hi)⟩
    · intro x
      simp only [Finset.mem_union, cS2 x, cA2 x, List.mem_append]
      constructor
      · rintro (⟨i, hi, hx⟩ | ⟨i, hi, hx⟩)
        · exact ⟨i, Or.inl hi, hx⟩
        · exact ⟨i, Or.inr hi, hx⟩
      · rintro ⟨i, hi | hi, hx⟩
        · exact Or.inl ⟨i, hi, hx⟩
        · exact Or.inr ⟨i, hi, hx⟩
  · intro j hj
    by_cases hja : j = a
    · left; rw [hja, Function.update_same]
    · right
      refine ⟨by rw [Function.update_noteq hja, Function.update_noteq hj], fun p hp hF => ?_⟩
      rcases List.mem_append.mp hF with hF | hF
      · exact hw.apart j k p hj hp hF
      · exact hw.apart j a p hja hp hF

theorem WInv.step_exec {v : DataViewer} {h0 : Heap} {w w' : World}
    (hv : ViewOk v h0) (hw : WInv v h0 w) (c : Call) (hP : mergeIntoEmpty w c = true)
    (he : exec v w c = some w') : WInv v h0 w' := by
  cases c with
  | setToSingleton k i => exact hw.step_setToSingleton hv k i he
  | mergeInto k a b =>
    exact hw.step_mergeInto k a b (List.isEmpty_iff.mp hP) he
  | addInto k a => exact hw.step_addInto k a he
  | moveInto k a =>
    simp only [exec] at he
    split at he
    swap
    · cases he
    simp only [Option.some.injEq] at he
    subst he
    exact hw.step_move k a

theorem WInv.run {v : DataViewer} {h0 : Heap} (hv : ViewOk v h0) (calls : List Call) :
    ∀ w w', WInv v h0 w → run v mergeIntoEmpty w calls = some w' → WInv v h0 w' := by
  induction calls with
  | nil =>
    intro w w' hw he
    simp only [Leadit.run, Option.some.injEq] at he
    subst he
    exact hw
  | cons c cs ih =>
    intro w w' hw he
    simp only [Leadit.run] at he
    split at he
    swap
    · cases he
    next hP =>
    split at he
    · next w1 h1 => exact ih w1 w' (hw.step_exec hv c hP h1) he
    · cases he

/-- C1 (as stated, refuted): a destination that already holds member 9 keeps
it in front of the merged members, so its member list is not `a`'s members
followed by `b`'s. -/
theorem mergeInto_nonempty_destination_keeps_members :
    exHeap.Owned [exA, exB] ∧
      (Cluster.mergeInto exHeap exC exA exB).map (fun r => r.2.1.indices) = some [9, 1, 2] ∧
      (Cluster.mergeInto exHeap exC exA exB).map (fun r => r.2.1.indices)
        ≠ some (exA.indices ++ exB.indices) ∧
      (Cluster.mergeInto exHeap exC exA exB).map (fun r => r.2.1.size) = some 3 := by
  decide

/-- C1 (amended): for every destination `C` with no members before the call
and every pair of valid clusters `A`, `B`, `C.mergeInto(A,B)` returns and the
member list of `C` is exactly `A`'s members followed by `B`'s: `size()` is the
`unsigned` sum of the two sizes, `C[i]` is `A[i]` for `i < m` and `B[i-m]` for
`m ≤ i < m+n`. -/
theorem mergeInto_members (h : Heap) (C A B : Cluster) (hC : C.indices = [])
    (hAB : h.Owned [A, B]) :
    ∃ h' C' A' B', Cluster.mergeInto h C A B = some (h', C', A', B') ∧
      C'.indices = A.indices ++ B.indices ∧
      C'.indices.length = A.indices.length + B.indices.length ∧
      C'.size = (A.size + B.size) % UINT_RANGE ∧
      (∀ i (hi : i < A.indices.length), C'.get i = some A.indices[i]) ∧
      (∀ i (_hm : A.indices.length ≤ i) (hi : i - A.indices.length < B.indices.length),
        C'.get i = some B.indices[i - A.indices.length]) := by
  obtain ⟨p1, q1, p2, q2, v1, u1, v2, u2, hA1, hA2, hB1, hB2, hv1, hu1, hv2, hu2, -⟩ :=
    Heap.Owned.pair h A B hAB
  obtain ⟨ia, ma, sa⟩ := A
  obtain ⟨ib, mb, sb⟩ := B
  simp only at hA1 hA2 hB1 hB2
  subst hA1 hA2 hB1 hB2
  refine ⟨_, _, _, _, Cluster.mergeInto_eq h C ia ib p1 q1 p2 q2 v1 u1 v2 u2 hv1 hu1 hv2 hu2,
    ?_, ?_, ?_, ?_, ?_⟩
  · simp [hC]
  · simp [hC]
  · simp [hC, Cluster.size, Nat.add_mod]
  · intro i hi
    simp [hC, Cluster.get, List.getElem?_append_left hi, List.getElem?_eq_getElem hi]
  · intro i hm hi
    simp [hC, Cluster.get, List.getElem?_append_right hm, List.getElem?_eq_getElem hi]

/-- Witness for `mergeInto_members`: an empty destination and the two example
singletons. -/
theorem mergeInto_members_witness :
    Cluster.new.indices = [] ∧ exHeap.Owned [exA, exB] ∧
      ∃ h' C' A' B', Cluster.mergeInto exHeap Cluster.new exA exB = some (h', C', A', B') ∧
        C'.indices = exA.indices ++ exB.indices ∧
        C'.indices.length = exA.indices.length + exB.indices.length ∧
        C'.size = (exA.size + exB.size) % UINT_RANGE ∧
        (∀ i (hi : i < exA.indices.length), C'.get i = some exA.indices[i]) ∧
        (∀ i (_hm : exA.indices.length ≤ i) (hi : i - exA.indices.length < exB.indices.length),
          C'.get i = some exB.indices[i - exA.indices.length]) :=
  ⟨rfl, by decide, mergeInto_members exHeap Cluster.new exA exB rfl (by decide)⟩

/-- C2: for valid `A` and `B` (and any destination), `C.mergeInto(A,B)` returns
and the intersection bound of `C` holds exactly the voxels of both pre-merge
intersection bounds, the union bound exactly the voxels of either pre-merge
union bound; in the end-to-end scenario (leaf records `{0,2,4}` and `{2,4,6}`
with destinations 10 and 20) the merge yields members `[10, 20]`, intersection
bound `{2,4}` and union bound `{0,2,4,6}`. -/
theorem mergeInto_bounds :
    (∀ (h : Heap) (C A B : Cluster), h.Owned [A, B] →
      ∃ h' C' A' B' vA vB uA uB, Cluster.mergeInto h C A B = some (h', C', A', B') ∧
        h.read A.MIV = some vA ∧ h.read B.MIV = some vB ∧
        h.read A.MSV = some uA ∧ h.read B.MSV = some uB ∧
        h'.read C'.MIV = some (vA ∩ vB) ∧ h'.read C'.MSV = some (uA ∪ uB) ∧
        (∀ x, x ∈ vA ∩ vB ↔ x ∈ vA ∧ x ∈ vB) ∧ (∀ x, x ∈ uA ∪ uB ↔ x ∈ uA ∨ x ∈ uB)) ∧
    scenario.map (fun r => (r.2.1.indices, r.1.read r.2.1.MIV, r.1.read r.2.1.MSV))
      = some ([10, 20], some {2, 4}, some {0, 2, 4, 6}) := by
  refine ⟨?_, by decide⟩
  intro h C A B hAB
  obtain ⟨p1, q1, p2, q2, v1, u1, v2, u2, hA1, hA2, hB1, hB2, hv1, hu1, hv2, hu2, -⟩ :=
    Heap.Owned.pair h A B hAB
  obtain ⟨ia, ma, sa⟩ := A
  obtain ⟨ib, mb, sb⟩ := B
  simp only at hA1 hA2 hB1 hB2
  subst hA1 hA2 hB1 hB2
  have l1 := h.read_lt p1 v1 hv1
  have l2 := h.read_lt q1 u1 hu1
  have l3 := h.read_lt p2 v2 hv2
  have l4 := h.read_lt q2 u2 hu2
  refine ⟨_, _, _, _, v1, v2, u1, u2,
    Cluster.mergeInto_eq h C ia ib p1 q1 p2 q2 v1 u1 v2 u2 hv1 hu1 hv2 hu2,
    hv1, hv2, hu1, hu2, ?_, ?_, fun x => Finset.mem_inter, fun x => Finset.mem_union⟩
  · simp only
    rw [Heap.read_free_ne _ _ _ (by omega), Heap.read_free_ne _ _ _ (by omega),
      Heap.read_free_ne _ _ _ (by omega), Heap.read_free_ne _ _ _ (by omega)]
    exact Heap.read_push_old _ _ _ _ _ (Heap.read_push_new _ _ _)
  · simp only
    rw [Heap.read_free_ne _ _ _ (by omega), Heap.read_free_ne _ _ _ (by omega),
      Heap.read_free_ne _ _ _ (by omega), Heap.read_free_ne _ _ _ (by omega)]
    have := Heap.read_push_new (h.push (v1 ∩ v2) (Event.intersect [p1, p2] h.store.length))
      (u1 ∪ u2) (Event.union [q1, q2] (h.store.length + 1))
    simpa using this

/-- Witness for `mergeInto_bounds`: the two example singletons merged into a
destination that holds a member. -/
theorem mergeInto_bounds_witness :
    exHeap.Owned [exA, exB] ∧
      ∃ h' C' A' B' vA vB uA uB, Cluster.mergeInto exHeap exC exA exB = some (h', C', A', B') ∧
        exHeap.read exA.MIV = some vA ∧ exHeap.read exB.MIV = some vB ∧
        exHeap.read exA.MSV = some uA ∧ exHeap.read exB.MSV = some uB ∧
        h'.read C'.MIV = some (vA ∩ vB) ∧ h'.read C'.MSV = some (uA ∪ uB) ∧
        (∀ x, x ∈ vA ∩ vB ↔ x ∈ vA ∧ x ∈ vB) ∧ (∀ x, x ∈ uA ∪ uB ↔ x ∈ uA ∨ x ∈ uB) :=
  ⟨by decide, mergeInto_bounds.1 exHeap exC exA exB (by decide)⟩

/-- C5: for every `S` and `A`, after `S.moveInto(A)` the two volumes of `S` are
the very instances `A` held, the member list of `S` is `A`'s, the heap and its
trace are untouched (no clone, no intersection or union primitive, no free),
and `A` is empty and invalid with both volumes absent. -/
theorem moveInto_transfers (h : Heap) (S A : Cluster) :
    (Cluster.moveInto h S A).2.1.MIV = A.MIV ∧
      (Cluster.moveInto h S A).2.1.MSV = A.MSV ∧
      (Cluster.moveInto h S A).2.1.indices = A.indices ∧
      (Cluster.moveInto h S A).1 = h ∧
      (Cluster.moveInto h S A).2.2.isValid = false ∧
      (Cluster.moveInto h S A).2.2.size = 0 ∧
      (Cluster.moveInto h S A).2.2.indices = [] ∧
      (Cluster.moveInto h S A).2.2.MIV = none ∧
      (Cluster.moveInto h S A).2.2.MSV = none :=
  ⟨rfl, rfl, rfl, rfl, rfl, rfl, rfl, rfl, rfl⟩

/-- C9: for every cluster state (also one with a single volume present), after
`clear()` the cluster is invalid, has size 0 and both volumes absent, and a
second `clear()` changes neither the cluster nor the heap (nothing is freed,
nothing is traced). -/
theorem clear_idempotent (h : Heap) (c : Cluster) :
    (Cluster.clear h c).2.isValid = false ∧ (Cluster.clear h c).2.size = 0 ∧
      (Cluster.clear h c).2.indices = [] ∧
      (Cluster.clear h c).2.MIV = none ∧ (Cluster.clear h c).2.MSV = none ∧
      Cluster.clear (Cluster.clear h c).1 (Cluster.clear h c).2 = Cluster.clear h c :=
  ⟨rfl, rfl, rfl, rfl, rfl, rfl⟩

/-- C6 (as stated, refuted): the valid cluster `exC` owns the live instances 0
and 1; called with these two present volumes as inputs, `setToSingleton` frees
both in its `clear()` (free count 1, no longer readable) before it clones
them, so the call does not yield a singleton and the inputs are freed. -/
theorem setToSingleton_frees_own_inputs :
    exC.MIV = some 0 ∧ exC.MSV = some 1 ∧
      exHeap.read (some 0) = some {7} ∧ exHeap.read (some 1) = some {7} ∧
      exHeap.freeCount 0 = 0 ∧ exHeap.freeCount 1 = 0 ∧
      (Cluster.clear exHeap exC).1.freeCount 0 = 1 ∧
      (Cluster.clear exHeap exC).1.freeCount 1 = 1 ∧
      (Cluster.clear exHeap exC).1.read (some 0) = none ∧
      (Cluster.clear exHeap exC).1.read (some 1) = none ∧
      MappableOctTree.clone (Cluster.clear exHeap exC).1 (some 0) = none ∧
      Cluster.setToSingleton exHeap exC 5 (some 0) (some 1) = none := by
  decide

/-- C6 (amended): for every prior state of the cluster, every destination `d`
and every pair of present (live) volumes `iv`, `uv` that are not instances owned by the
cluster itself, `setToSingleton(d, iv, uv)` returns; afterwards the cluster is
valid, has size 1 and member 0 equal to `d`, and its two volumes hold the
contents of `iv` and `uv` in two new instances, different from each other and
from `iv` and `uv`; the inputs stay live with their content and are not freed. -/
theorem setToSingleton_contract (h : Heap) (self : Cluster) (d : Nat) (iv uv : Option Nat)
    (vi vu : Finset Nat) (hvi : h.read iv = some vi) (hvu : h.read uv = some vu)
    (hown : ∀ p ∈ self.handles, some p ≠ iv ∧ some p ≠ uv) :
    ∃ h' c' p q, Cluster.setToSingleton h self d iv uv = some (h', c') ∧
      c'.isValid = true ∧ c'.size = 1 ∧ c'.get 0 = some d ∧ c'.indices = [d] ∧
      c'.MIV = some p ∧ c'.MSV = some q ∧
      h'.read c'.MIV = some vi ∧ h'.read c'.MSV = some vu ∧
      c'.MIV ≠ iv ∧ c'.MIV ≠ uv ∧ c'.MSV ≠ iv ∧ c'.MSV ≠ uv ∧ c'.MIV ≠ c'.MSV ∧
      h.store.length ≤ p ∧ h.store.length ≤ q ∧
      h'.read iv = some vi ∧ h'.read uv = some vu ∧
      (∀ a, iv = some a ∨ uv = some a → h.freeCount a = 0 ∧ h'.freeCount a = 0) := by
  cases iv with
  | none => simp [Heap.read] at hvi
  | some a =>
  cases uv with
  | none => simp [Heap.read] at hvu
  | some b =>
  have ha : a ∉ self.handles := fun hm => (hown a hm).1 rfl
  have hb : b ∉ self.handles := fun hm => (hown b hm).2 rfl
  have la := h.read_lt a vi hvi
  have lb := h.read_lt b vu hvu
  have hext : Heap.Extends self.handles h
      (((Cluster.clear h self).1.push vi (Event.clone a h.store.length)).push vu
        (Event.clone b (h.store.length + 1))) :=
    ((Cluster.clear_extends h self).trans (Heap.extends_push _ _ _ _)).trans
      (Heap.extends_push _ _ _ _)
  have hI : (((Cluster.clear h self).1.push vi (Event.clone a h.store.length)).push vu
      (Event.clone b (h.store.length + 1))).read (some h.store.length) = some vi := by
    apply Heap.read_push_old
    have := Heap.read_push_new (Cluster.clear h self).1 vi (Event.clone a h.store.length)
    simpa using this
  have hU : (((Cluster.clear h self).1.push vi (Event.clone a h.store.length)).push vu
      (Event.clone b (h.store.length + 1))).read (some (h.store.length + 1)) = some vu := by
    have := Heap.read_push_new ((Cluster.clear h self).1.push vi (Event.clone a h.store.length))
      vu (Event.clone b (h.store.length + 1))
    simpa using this
  refine ⟨_, _, h.store.length, h.store.length + 1,
    Cluster.setToSingleton_eq h self d a b vi vu ha hb hvi hvu,
    rfl, rfl, rfl, rfl, rfl, rfl, hI, hU, ?_, ?_, ?_, ?_, ?_, Nat.le_refl _, Nat.le_succ _,
    hext.read a vi ha hvi, hext.read b vu hb hvu, ?_⟩
  · simp only [ne_eq, Option.some.injEq]; omega
  · simp only [ne_eq, Option.some.injEq]; omega
  · simp only [ne_eq, Option.some.injEq]; omega
  · simp only [ne_eq, Option.some.injEq]; omega
  · simp only [ne_eq, Option.some.injEq]; omega
  · intro x hx
    rcases hx with hx | hx
    · cases hx
      exact ⟨h.freeCount_of_read a vi hvi,
        Heap.freeCount_of_read _ a vi (hext.read a vi ha hvi)⟩
    · cases hx
      exact ⟨h.freeCount_of_read b vu hvu,
        Heap.freeCount_of_read _ b vu (hext.read b vu hb hvu)⟩

/-- Witness for `setToSingleton_contract`: the valid cluster `exC` reset to a
singleton of the record volume at address 2. -/
theorem setToSingleton_contract_witness :
    exHeap.read (some 2) = some {0, 2, 4} ∧
      (∀ p ∈ exC.handles, some p ≠ some 2 ∧ some p ≠ some 2) ∧
      ∃ h' c' p q, Cluster.setToSingleton exHeap exC 5 (some 2) (some 2) = some (h', c') ∧
        c'.isValid = true ∧ c'.size = 1 ∧ c'.get 0 = some 5 ∧ c'.indices = [5] ∧
        c'.MIV = some p ∧ c'.MSV = some q ∧
        h'.read c'.MIV = some {0, 2, 4} ∧ h'.read c'.MSV = some {0, 2, 4} ∧
        c'.MIV ≠ some 2 ∧ c'.MIV ≠ some 2 ∧ c'.MSV ≠ some 2 ∧ c'.MSV ≠ some 2 ∧
        c'.MIV ≠ c'.MSV ∧ exHeap.store.length ≤ p ∧ exHeap.store.length ≤ q ∧
        h'.read (some 2) = some {0, 2, 4} ∧ h'.read (some 2) = some {0, 2, 4} ∧
        (∀ a, some 2 = some a ∨ some 2 = some a →
          exHeap.freeCount a = 0 ∧ h'.freeCount a = 0) :=
  ⟨by decide, by decide,
    setToSingleton_contract exHeap exC 5 (some 2) (some 2) {0, 2, 4} {0, 2, 4}
      (by decide) (by decide) (by decide)⟩

/-- C7: for valid `A` and `B` (four live instances, all different) and any
destination, `C.mergeInto(A,B)` returns and leaves `A` and `B` empty and
invalid with both volumes absent; each of the four instances `A` and `B` owned
was live before and has been freed exactly once. -/
theorem mergeInto_consumes (h : Heap) (C A B : Cluster) (hAB : h.Owned [A, B]) :
    ∃ h' C' A' B', Cluster.mergeInto h C A B = some (h', C', A', B') ∧
      A'.indices = [] ∧ A'.MIV = none ∧ A'.MSV = none ∧ A'.isValid = false ∧
      B'.indices = [] ∧ B'.MIV = none ∧ B'.MSV = none ∧ B'.isValid = false ∧
      (A.handles ++ B.handles).length = 4 ∧ (A.handles ++ B.handles).Nodup ∧
      ∀ p ∈ A.handles ++ B.handles, h.freeCount p = 0 ∧ h'.freeCount p = 1 ∧
        h'.trace.count (Event.free p) = h.trace.count (Event.free p) + 1 := by
  obtain ⟨p1, q1, p2, q2, v1, u1, v2, u2, hA1, hA2, hB1, hB2, hv1, hu1, hv2, hu2,
    n1, n2, n3, n4, n5, n6⟩ := Heap.Owned.pair h A B hAB
  obtain ⟨ia, ma, sa⟩ := A
  obtain ⟨ib, mb, sb⟩ := B
  simp only at hA1 hA2 hB1 hB2
  subst hA1 hA2 hB1 hB2
  have l1 := h.read_lt p1 v1 hv1
  have l2 := h.read_lt q1 u1 hu1
  have l3 := h.read_lt p2 v2 hv2
  have l4 := h.read_lt q2 u2 hu2
  have f1 := h.freeCount_of_read p1 v1 hv1
  have f2 := h.freeCount_of_read q1 u1 hu1
  have f3 := h.freeCount_of_read p2 v2 hv2
  have f4 := h.freeCount_of_read q2 u2 hu2
  refine ⟨_, _, _, _, Cluster.mergeInto_eq h C ia ib p1 q1 p2 q2 v1 u1 v2 u2 hv1 hu1 hv2 hu2,
    rfl, rfl, rfl, rfl, rfl, rfl, rfl, rfl, rfl, ?_, ?_⟩
  · simp [Cluster.handles]; omega
  · intro p hp
    simp [Cluster.handles] at hp
    have e1 : Event.free p1 ≠ Event.free q1 := by simpa using n1
    have e2 : Event.free p1 ≠ Event.free p2 := by simpa using n2
    have e3 : Event.free p1 ≠ Event.free q2 := by simpa using n3
    have e4 : Event.free q1 ≠ Event.free p2 := by simpa using n4
    have e5 : Event.free q1 ≠ Event.free q2 := by simpa using n5
    have e6 : Event.free p2 ≠ Event.free q2 := by simpa using n6
    rcases hp with rfl | rfl | rfl | rfl
    · refine ⟨f1, ?_, ?_⟩
      · simp [Heap.freeCount_free, Heap.freeCount_push, f1, n1, n2, n3]; omega
      · simp [List.count_cons, e1, e2, e3]
    · refine ⟨f2, ?_, ?_⟩
      · simp [Heap.freeCount_free, Heap.freeCount_push, f2, Ne.symm n1, n4, n5]; omega
      · simp [List.count_cons, Ne.symm e1, e4, e5]
    · refine ⟨f3, ?_, ?_⟩
      · simp [Heap.freeCount_free, Heap.freeCount_push, f3, Ne.symm n2, Ne.symm n4, n6]; omega
      · simp [List.count_cons, Ne.symm e2, Ne.symm e4, e6]
    · refine ⟨f4, ?_, ?_⟩
      · simp [Heap.freeCount_free, Heap.freeCount_push, f4, Ne.symm n3, Ne.symm n5, Ne.symm n6]
        omega
      · simp [List.count_cons, Ne.symm e3, Ne.symm e5, Ne.symm e6]

/-- Witness for `mergeInto_consumes`: the example singletons. -/
theorem mergeInto_consumes_witness :
    exHeap.Owned [exA, exB] ∧
      ∃ h' C' A' B', Cluster.mergeInto exHeap exC exA exB = some (h', C', A', B') ∧
        A'.indices = [] ∧ A'.MIV = none ∧ A'.MSV = none ∧ A'.isValid = false ∧
        B'.indices = [] ∧ B'.MIV = none ∧ B'.MSV = none ∧ B'.isValid = false ∧
        (exA.handles ++ exB.handles).length = 4 ∧ (exA.handles ++ exB.handles).Nodup ∧
        ∀ p ∈ exA.handles ++ exB.handles, exHeap.freeCount p = 0 ∧ h'.freeCount p = 1 ∧
          h'.trace.count (Event.free p) = exHeap.trace.count (Event.free p) + 1 :=
  ⟨by decide, mergeInto_consumes exHeap exC exA exB (by decide)⟩

/-- C10: for every cluster `C` whose present volumes are live, the copy
constructor returns a cluster `D` with the same member sequence and volumes
content-equal to `C`'s (absent where `C`'s is absent) in new instances that
are not `C`'s; the copy leaves `C`'s bound content and the liveness of its
volumes as they were, and so does afterwards clearing `D`, resetting `D` to a
singleton or adding another cluster into `D`; the same holds with the roles of
`C` and `D` exchanged. -/
theorem copy_is_deep (h : Heap) (C : Cluster) (hl : ∀ p ∈ C.handles, h.live p = true) :
    ∃ h' D, Cluster.copy h C = some (h', D) ∧ D.indices = C.indices ∧
      h'.read D.MIV = h.read C.MIV ∧ h'.read D.MSV = h.read C.MSV ∧
      (D.MIV = none ↔ C.MIV = none) ∧ (D.MSV = none ↔ C.MSV = none) ∧
      (∀ p ∈ D.handles, h.store.length ≤ p ∧ p ∉ C.handles ∧ h'.live p = true) ∧
      Heap.Untouched h h' C ∧
      Heap.Untouched h' (Cluster.clear h' D).1 C ∧
      Heap.Untouched h' (Cluster.clear h' C).1 D ∧
      (∀ d iv uv k D', Cluster.setToSingleton h' D d iv uv = some (k, D') →
        Heap.Untouched h' k C) ∧
      (∀ d iv uv k C', Cluster.setToSingleton h' C d iv uv = some (k, C') →
        Heap.Untouched h' k D) ∧
      (∀ X k D' X', (∀ p ∈ X.handles, p ∉ C.handles) →
        Cluster.addInto h' D X = some (k, D', X') → Heap.Untouched h' k C) ∧
      (∀ X k C' X', (∀ p ∈ X.handles, p ∉ D.handles) →
        Cluster.addInto h' C X = some (k, C', X') → Heap.Untouched h' k D) := by
  obtain ⟨h', D, he, hi, hm, hs, him, his, hfresh, -, hext, -⟩ := Cluster.copy_summary h C hl
  have hCD : ∀ p ∈ C.handles, p ∉ D.handles := fun p hp hd => by
    have h1 := (hfresh p hd).1
    have h2 := h.live_lt p (hl p hp)
    omega
  have hDC : ∀ p ∈ D.handles, p ∉ C.handles := fun p hd hp => hCD p hp hd
  have hl' : ∀ p ∈ C.handles, h'.live p = true :=
    fun p hp => hext.live p (List.not_mem_nil p) (hl p hp)
  have hlD : ∀ p ∈ D.handles, h'.live p = true := fun p hp => (hfresh p hp).2
  refine ⟨h', D, he, hi, hm, hs, ?_, ?_, fun p hp => ⟨(hfresh p hp).1, hDC p hp, hlD p hp⟩,
    hext.untouched C (fun p _ => List.not_mem_nil p) hl,
    (Cluster.clear_extends h' D).untouched C hCD hl',
    (Cluster.clear_extends h' C).untouched D hDC hlD, ?_, ?_, ?_, ?_⟩
  · cases hD : D.MIV <;> cases hC : C.MIV <;> simp [hD, hC] at him ⊢
  · cases hD : D.MSV <;> cases hC : C.MSV <;> simp [hD, hC] at his ⊢
  · intro d iv uv k D' hk
    exact (Cluster.setToSingleton_extends h' k D D' d iv uv hk).untouched C hCD hl'
  · intro d iv uv k C' hk
    exact (Cluster.setToSingleton_extends h' k C C' d iv uv hk).untouched D hDC hlD
  · intro X k D' X' hX hk
    refine (Cluster.addInto_extends h' k D X D' X' hk).untouched C ?_ hl'
    intro p hp hm
    rcases List.mem_append.mp hm with hm | hm
    · exact hCD p hp hm
    · exact hX p hm hp
  · intro X k C' X' hX hk
    refine (Cluster.addInto_extends h' k C X C' X' hk).untouched D ?_ hlD
    intro p hp hm
    rcases List.mem_append.mp hm with hm | hm
    · exact hDC p hp hm
    · exact hX p hm hp

/-- Witness for `copy_is_deep`: the copy of the valid example cluster `exA`. -/
theorem copy_is_deep_witness :
    (∀ p ∈ exA.handles, exHeap.live p = true) ∧
    ∃ h' D, Cluster.copy exHeap exA = some (h', D) ∧ D.indices = exA.indices ∧
      h'.read D.MIV = exHeap.read exA.MIV ∧ h'.read D.MSV = exHeap.read exA.MSV ∧
      (D.MIV = none ↔ exA.MIV = none) ∧ (D.MSV = none ↔ exA.MSV = none) ∧
      (∀ p ∈ D.handles, exHeap.store.length ≤ p ∧ p ∉ exA.handles ∧ h'.live p = true) ∧
      Heap.Untouched exHeap h' exA ∧
      Heap.Untouched h' (Cluster.clear h' D).1 exA ∧
      Heap.Untouched h' (Cluster.clear h' exA).1 D ∧
      (∀ d iv uv k D', Cluster.setToSingleton h' D d iv uv = some (k, D') →
        Heap.Untouched h' k exA) ∧
      (∀ d iv uv k C', Cluster.setToSingleton h' exA d iv uv = some (k, C') →
        Heap.Untouched h' k D) ∧
      (∀ X k D' X', (∀ p ∈ X.handles, p ∉ exA.handles) →
        Cluster.addInto h' D X = some (k, D', X') → Heap.Untouched h' k exA) ∧
      (∀ X k C' X', (∀ p ∈ X.handles, p ∉ D.handles) →
        Cluster.addInto h' exA X = some (k, C', X') → Heap.Untouched h' k D) :=
  ⟨by decide, copy_is_deep exHeap exA (by decide)⟩

/-- C8: the data-model invariant (no members exactly when both volumes are
absent; the two volumes both present or both absent) holds for every
default-constructed cluster, and when the operands are valid clusters
satisfying it each of `setToSingleton`, `mergeInto`, `addInto`, `moveInto`,
`clear` and copy construction returns and establishes it for self and for
every operand. -/
theorem invariant_preserved :
    Cluster.new.Inv ∧
    (∀ (h : Heap) (self : Cluster) (d : Nat) (iv uv : Option Nat) (vi vu : Finset Nat),
      h.read iv = some vi → h.read uv = some vu →
      (∀ p ∈ self.handles, some p ≠ iv ∧ some p ≠ uv) →
      ∃ h' c', Cluster.setToSingleton h self d iv uv = some (h', c') ∧ c'.Inv) ∧
    (∀ (h : Heap) (C A B : Cluster), A.Inv → B.Inv → h.Owned [A, B] →
      ∃ h' C' A' B', Cluster.mergeInto h C A B = some (h', C', A', B') ∧
        C'.Inv ∧ A'.Inv ∧ B'.Inv) ∧
    (∀ (h : Heap) (S A : Cluster), S.Inv → A.Inv → h.Owned [S, A] →
      ∃ h' S' A', Cluster.addInto h S A = some (h', S', A') ∧ S'.Inv ∧ A'.Inv) ∧
    (∀ (h : Heap) (S A : Cluster), A.Inv →
      (Cluster.moveInto h S A).2.1.Inv ∧ (Cluster.moveInto h S A).2.2.Inv) ∧
    (∀ (h : Heap) (c : Cluster), (Cluster.clear h c).2.Inv) ∧
    (∀ (h : Heap) (C : Cluster), C.Inv → (∀ p ∈ C.handles, h.live p = true) →
      ∃ h' D, Cluster.copy h C = some (h', D) ∧ D.Inv ∧ C.Inv) := by
  refine ⟨Cluster.new_inv, ?_, ?_, ?_, ?_, ?_, ?_⟩
  · intro h self d iv uv vi vu hvi hvu hown
    cases iv with
    | none => simp [Heap.read] at hvi
    | some a =>
    cases uv with
    | none => simp [Heap.read] at hvu
    | some b =>
    exact ⟨_, _, Cluster.setToSingleton_eq h self d a b vi vu (fun hm => (hown a hm).1 rfl)
      (fun hm => (hown b hm).2 rfl) hvi hvu, by simp [Cluster.Inv]⟩
  · intro h C A B hA hB hAB
    obtain ⟨p1, q1, p2, q2, v1, u1, v2, u2, hA1, hA2, hB1, hB2, hv1, hu1, hv2, hu2, -⟩ :=
      Heap.Owned.pair h A B hAB
    obtain ⟨ia, ma, sa⟩ := A
    obtain ⟨ib, mb, sb⟩ := B
    simp only at hA1 hA2 hB1 hB2
    subst hA1 hA2 hB1 hB2
    refine ⟨_, _, _, _, Cluster.mergeInto_eq h C ia ib p1 q1 p2 q2 v1 u1 v2 u2 hv1 hu1 hv2 hu2,
      ?_, Cluster.new_inv, Cluster.new_inv⟩
    simp [Cluster.Inv] at hA ⊢
    simp [hA]
  · intro h S A hS hA hSA
    obtain ⟨p1, q1, p2, q2, v1, u1, v2, u2, hA1, hA2, hB1, hB2, hv1, hu1, hv2, hu2,
      n1, -, n3, -⟩ := Heap.Owned.pair h S A hSA
    obtain ⟨is, ms, ss⟩ := S
    obtain ⟨ia, ma, sa⟩ := A
    simp only at hA1 hA2 hB1 hB2
    subst hA1 hA2 hB1 hB2
    refine ⟨_, _, _, Cluster.addInto_eq h is ia p1 q1 p2 q2 v1 u1 v2 u2 hv1 hu1 hv2 hu2
      (Ne.symm n1) (Ne.symm n3), ?_, Cluster.new_inv⟩
    simp [Cluster.Inv] at hS ⊢
    simp [hS]
  · intro h S A hA
    exact ⟨hA, Cluster.new_inv⟩
  · intro h c
    exact Cluster.new_inv
  · intro h C hC hl
    obtain ⟨h', D, he, hi, -, -, hm, hs, -⟩ := Cluster.copy_summary h C hl
    refine ⟨h', D, he, ?_, hC⟩
    obtain ⟨iD, mD, sD⟩ := D
    obtain ⟨iC, mC, sC⟩ := C
    simp only at hi hm hs
    subst hi
    cases mD <;> cases sD <;> cases mC <;> cases sC <;>
      simp_all [Cluster.Inv]

/-- Witness for `invariant_preserved`: each operation applied to the example
clusters. -/
theorem invariant_preserved_witness :
    (exHeap.read (some 2) = some {0, 2, 4} ∧
      (∀ p ∈ exC.handles, some p ≠ some 2 ∧ some p ≠ some 2) ∧
      ∃ h' c', Cluster.setToSingleton exHeap exC 5 (some 2) (some 2) = some (h', c') ∧ c'.Inv) ∧
    (exA.Inv ∧ exB.Inv ∧ exHeap.Owned [exA, exB] ∧
      ∃ h' C' A' B', Cluster.mergeInto exHeap exC exA exB = some (h', C', A', B') ∧
        C'.Inv ∧ A'.Inv ∧ B'.Inv) ∧
    (exC.Inv ∧ exA.Inv ∧ exHeap.Owned [exC, exA] ∧
      ∃ h' S' A', Cluster.addInto exHeap exC exA = some (h', S', A') ∧ S'.Inv ∧ A'.Inv) ∧
    (exA.Inv ∧ (Cluster.moveInto exHeap exC exA).2.1.Inv ∧
      (Cluster.moveInto exHeap exC exA).2.2.Inv) ∧
    (exA.Inv ∧ (∀ p ∈ exA.handles, exHeap.live p = true) ∧
      ∃ h' D, Cluster.copy exHeap exA = some (h', D) ∧ D.Inv ∧ exA.Inv) :=
  ⟨⟨by decide, by decide,
      invariant_preserved.2.1 exHeap exC 5 (some 2) (some 2) {0, 2, 4} {0, 2, 4}
        (by decide) (by decide) (by decide)⟩,
    ⟨by decide, by decide, by decide,
      invariant_preserved.2.2.1 exHeap exC exA exB (by decide) (by decide) (by decide)⟩,
    ⟨by decide, by decide, by decide,
      invariant_preserved.2.2.2.1 exHeap exC exA (by decide) (by decide) (by decide)⟩,
    ⟨by decide, invariant_preserved.2.2.2.2.1 exHeap exC exA (by decide)⟩,
    ⟨by decide, by decide,
      invariant_preserved.2.2.2.2.2.2 exHeap exA (by decide) (by decide)⟩⟩

/-- C3 (as stated, refuted): three singletons over the records `{0}`, `{1}`,
`{1}` and a merge of the second and third into the first (all operands valid)
leave cluster 0 with members `[0, 1, 2]` and both bounds `{1}`; voxel 1 is not
occupied by member 0, so the bounds do not describe the member list. -/
theorem bounds_not_described_after_merge_into_members :
    ViewOk exView exRegion ∧
      (run exView anyCall (World.init exRegion) exCalls).map
        (fun w => ((w.clusters 0).indices, w.heap.read (w.clusters 0).MIV,
          w.heap.read (w.clusters 0).MSV)) = some ([0, 1, 2], some {1}, some {1}) ∧
      recordVoxels exView exRegion 0 = {0} ∧
      ¬ (∀ w, run exView anyCall (World.init exRegion) exCalls = some w →
          ∀ k, Describes exView exRegion w.heap (w.clusters k)) := by
  have hobs : (run exView anyCall (World.init exRegion) exCalls).map
      (fun w => ((w.clusters 0).indices, w.heap.read (w.clusters 0).MIV,
        w.heap.read (w.clusters 0).MSV)) = some ([0, 1, 2], some {1}, some {1}) := by decide
  have hrec : recordVoxels exView exRegion 0 = {0} := by decide
  refine ⟨by decide, hobs, hrec, ?_⟩
  intro H
  cases hr : run exView anyCall (World.init exRegion) exCalls with
  | none => rw [hr] at hobs; cases hobs
  | some w =>
    rw [hr] at hobs
    simp only [Option.map_some', Option.some.injEq, Prod.mk.injEq] at hobs
    obtain ⟨hi, hm, -⟩ := hobs
    rcases H w hr 0 with ⟨hnil, -, -⟩ | ⟨vi, vu, h1, -, h3, -⟩
    · rw [hnil] at hi; cases hi
    · rw [hm] at h1
      simp only [Option.some.injEq] at h1
      have h4 := (h3 1).mp (by rw [← h1]; decide) 0 (by rw [hi]; decide)
      rw [hrec] at h4
      revert h4
      decide

/-- C3 (amended): over a leaf view whose records lie in the mapped region,
every cluster reached from default-constructed clusters by a sequence of
`setToSingleton` (on records of the view), `mergeInto`, `addInto` and
`moveInto` calls on distinct objects with valid operands, in which every
`mergeInto` destination has no members, is either empty with both volumes
absent or has an intersection bound holding exactly the voxels occupied by
every member's record volume and a union bound holding exactly the voxels
occupied by at least one member's record volume. -/
theorem bounds_describe_members (v : DataViewer) (h0 : Heap) (hv : ViewOk v h0)
    (calls : List Call) (w : World)
    (hrun : run v mergeIntoEmpty (World.init h0) calls = some w) (k : Nat) :
    Describes v h0 w.heap (w.clusters k) :=
  (WInv.run hv calls (World.init h0) w (WInv.init v h0) hrun).describes k

/-- Witness for `bounds_describe_members`: two singletons merged into an empty
cluster, a third singleton added, the result moved into cluster 4, which then
has members `[1, 2, 0]`, an empty intersection bound and union bound `{1, 0}`. -/
theorem bounds_describe_members_witness :
    ViewOk exView exRegion ∧
      (run exView mergeIntoEmpty (World.init exRegion) exCallsGated).map
        (fun w => ((w.clusters 4).indices, w.heap.read (w.clusters 4).MIV,
          w.heap.read (w.clusters 4).MSV)) = some ([1, 2, 0], some ∅, some {1, 0}) ∧
      ∃ w, run exView mergeIntoEmpty (World.init exRegion) exCallsGated = some w ∧
        Describes exView exRegion w.heap (w.clusters 4) :=
  ⟨by decide, by decide,
    (run exView mergeIntoEmpty (World.init exRegion) exCallsGated).get (by decide),
    (Option.some_get _).symm,
    bounds_describe_members exView exRegion (by decide) exCallsGated _
      (Option.some_get _).symm 4⟩

/-! ## Record views -/

theorem DataViewer.construct_eq (data : Nat) (treei pt : List Nat)
    (hlen : pt.length = treei.length) :
    DataViewer.construct data treei pt
      = some ({ treeptr := data, pointtos := pt, treeindices := treei }, [], []) := by
  simp [DataViewer.construct, hlen]

theorem DataViewer.construct_none (data : Nat) (treei pt : List Nat)
    (hlen : pt.length ≠ treei.length) : DataViewer.construct data treei pt = none := by
  simp [DataViewer.construct, hlen]

/-- C12: construction of a record view fails (the assertion fires) exactly
when the content-locator and destination-locator sequences have different
lengths; with equal lengths, two empty sequences included, it succeeds. -/
theorem construct_fails_iff (data : Nat) (treei pt : List Nat) :
    (DataViewer.construct data treei pt = none ↔ treei.length ≠ pt.length) ∧
      (LeafViewer.construct data treei pt = none ↔ treei.length ≠ pt.length) ∧
      (NodeViewer.construct data treei pt = none ↔ treei.length ≠ pt.length) ∧
      ((DataViewer.construct data treei pt).isSome = true ↔ treei.length = pt.length) ∧
      (DataViewer.construct data [] []).isSome = true := by
  have key : DataViewer.construct data treei pt = none ↔ treei.length ≠ pt.length := by
    by_cases hlen : pt.length = treei.length
    · simp [DataViewer.construct_eq data treei pt hlen, hlen]
    · simp [DataViewer.construct_none data treei pt hlen, Ne.symm hlen]
  refine ⟨key, key, key, ?_, rfl⟩
  by_cases hlen : pt.length = treei.length
  · simp [DataViewer.construct_eq data treei pt hlen, hlen]
  · simp [DataViewer.construct_none data treei pt hlen, Ne.symm hlen]

/-- C13: for every leaf view and every `i < size()`, `getMIV(i)` and
`getMSV(i)` return the same pointer, the address of the region at offset
`treeindices[i]`; for a constructed view that offset is the `i`-th content
locator passed in, and reading the two pointers gives the same content in
every memory. -/
theorem leaf_bounds_same_volume (v : DataViewer) (i : Nat) (hi : i < v.size) :
    ∃ off, v.treeindices[i]? = some off ∧
      LeafViewer.getMIV v i = some (v.treeptr + off) ∧
      LeafViewer.getMSV v i = some (v.treeptr + off) ∧
      LeafViewer.getMIV v i = LeafViewer.getMSV v i ∧
      (∀ h : Heap, h.read (LeafViewer.getMIV v i) = h.read (LeafViewer.getMSV v i)) ∧
      (∀ data treei pt r, LeafViewer.construct data treei pt = some (v, r) →
        treei[i]? = some off ∧ v.treeptr = data) := by
  have hlt : i < v.treeindices.length :=
    Nat.lt_of_lt_of_le hi (Nat.mod_le _ _)
  refine ⟨v.treeindices[i], List.getElem?_eq_getElem hlt, ?_, ?_, rfl, fun _ => rfl, ?_⟩
  · simp [LeafViewer.getMIV, List.getElem?_eq_getElem hlt]
  · simp [LeafViewer.getMSV, List.getElem?_eq_getElem hlt]
  · intro data treei pt r he
    simp only [LeafViewer.construct, DataViewer.construct] at he
    split at he
    · simp only [Option.some.injEq, Prod.mk.injEq] at he
      obtain ⟨hv, -⟩ := he
      subst hv
      exact ⟨List.getElem?_eq_getElem hlt, rfl⟩
    · cases he

/-- Witness for `leaf_bounds_same_volume`: record 1 of the example view. -/
theorem leaf_bounds_same_volume_witness :
    1 < exView.size ∧
    ∃ off, exView.treeindices[1]? = some off ∧
      LeafViewer.getMIV exView 1 = some (exView.treeptr + off) ∧
      LeafViewer.getMSV exView 1 = some (exView.treeptr + off) ∧
      LeafViewer.getMIV exView 1 = LeafViewer.getMSV exView 1 ∧
      (∀ h : Heap, h.read (LeafViewer.getMIV exView 1) = h.read (LeafViewer.getMSV exView 1)) ∧
      (∀ data treei pt r, LeafViewer.construct data treei pt = some (exView, r) →
        treei[1]? = some off ∧ exView.treeptr = data) :=
  ⟨by decide, leaf_bounds_same_volume exView 1 (by decide)⟩

/-- C14: `isLeaf()` does not depend on the contents of the view: it returns
true for every leaf view and false for every node view. -/
theorem isLeaf_constant (v : DataViewer) :
    LeafViewer.isLeaf v = true ∧ NodeViewer.isLeaf v = false ∧
      (∀ u : DataViewer, LeafViewer.isLeaf u = LeafViewer.isLeaf v) ∧
      (∀ u : DataViewer, NodeViewer.isLeaf u = NodeViewer.isLeaf v) :=
  ⟨rfl, rfl, fun _ => rfl, fun _ => rfl⟩

/-- C19: for every pair of equal-length locator sequences, construction of a
record view returns; afterwards both sequences of the caller are empty and the
view holds their former contents, unchanged and in order. -/
theorem construct_consumes_inputs (data : Nat) (treei pt : List Nat)
    (hlen : treei.length = pt.length) :
    ∃ v treei' pt', DataViewer.construct data treei pt = some (v, treei', pt') ∧
      treei' = [] ∧ pt' = [] ∧ treei'.length = 0 ∧ pt'.length = 0 ∧
      v.treeindices = treei ∧ v.pointtos = pt ∧ v.treeptr = data :=
  ⟨_, _, _, DataViewer.construct_eq data treei pt hlen.symm, rfl, rfl, rfl, rfl, rfl, rfl, rfl⟩

/-- Witness for `construct_consumes_inputs`: three records. -/
theorem construct_consumes_inputs_witness :
    [0, 1, 2].length = [100, 101, 102].length ∧
    ∃ v treei' pt', DataViewer.construct 0 [0, 1, 2] [100, 101, 102] = some (v, treei', pt') ∧
      treei' = [] ∧ pt' = [] ∧ treei'.length = 0 ∧ pt'.length = 0 ∧
      v.treeindices = [0, 1, 2] ∧ v.pointtos = [100, 101, 102] ∧ v.treeptr = 0 :=
  ⟨rfl, construct_consumes_inputs 0 [0, 1, 2] [100, 101, 102] rfl⟩

/-! ## Ownership effects of the cluster operations -/

/-- C15 (as stated, refuted): the valid cluster `exC` owns instances 0 and 1;
after `exC.moveInto(exA)` the operand holds no volume (the volumes were handed
over, not exchanged), nothing was freed, and instances 0 and 1 are still
allocated although the destination does not own them. -/
theorem moveInto_does_not_free_destination_volumes :
    exHeap.Owned [exC, exA] ∧ exC.handles = [0, 1] ∧
      (Cluster.moveInto exHeap exC exA).2.2.MIV = none ∧
      (Cluster.moveInto exHeap exC exA).2.2.MSV = none ∧
      (Cluster.moveInto exHeap exC exA).1.trace = exHeap.trace ∧
      (Cluster.moveInto exHeap exC exA).2.1.handles = [2, 3] ∧
      (∀ p ∈ exC.handles, (Cluster.moveInto exHeap exC exA).1.live p = true ∧
        (Cluster.moveInto exHeap exC exA).1.freeCount p = 0 ∧
        p ∉ (Cluster.moveInto exHeap exC exA).2.1.handles) := by
  decide

/-- C15 (amended): for every cluster `S` that owns no volume before the call
and every cluster `A`, `S.moveInto(A)` exchanges the member lists and clears
`A` (so `S` has `A`'s members and `A` none), hands `A`'s two volume instances
over to `S`, frees nothing and leaves the heap as it was; every volume `S` or
`A` owned before the call is owned by `S` afterwards. -/
theorem moveInto_ownership (h : Heap) (S A : Cluster) (hS : S.handles = []) :
    (Cluster.moveInto h S A).2.1.indices = A.indices ∧
      (Cluster.moveInto h S A).2.2.indices = [] ∧
      (Cluster.moveInto h S A).2.1.handles = A.handles ∧
      (Cluster.moveInto h S A).2.2.handles = [] ∧
      (Cluster.moveInto h S A).1 = h ∧
      (∀ p, (Cluster.moveInto h S A).1.freeCount p = h.freeCount p) ∧
      (∀ p ∈ S.handles ++ A.handles, p ∈ (Cluster.moveInto h S A).2.1.handles) := by
  refine ⟨rfl, rfl, rfl, rfl, rfl, fun _ => rfl, ?_⟩
  intro p hp
  rw [hS, List.nil_append] at hp
  exact hp

/-- Witness for `moveInto_ownership`: a default-constructed destination and the
valid example cluster `exA`. -/
theorem moveInto_ownership_witness :
    Cluster.new.handles = [] ∧
      (Cluster.moveInto exHeap Cluster.new exA).2.1.indices = exA.indices ∧
      (Cluster.moveInto exHeap Cluster.new exA).2.2.indices = [] ∧
      (Cluster.moveInto exHeap Cluster.new exA).2.1.handles = exA.handles ∧
      (Cluster.moveInto exHeap Cluster.new exA).2.2.handles = [] ∧
      (Cluster.moveInto exHeap Cluster.new exA).1 = exHeap ∧
      (∀ p, (Cluster.moveInto exHeap Cluster.new exA).1.freeCount p = exHeap.freeCount p) ∧
      (∀ p ∈ Cluster.new.handles ++ exA.handles,
        p ∈ (Cluster.moveInto exHeap Cluster.new exA).2.1.handles) :=
  ⟨rfl, moveInto_ownership exHeap Cluster.new exA rfl⟩

/-- C16: for valid `S` and `A` (distinct objects owning four different live
instances), `S.addInto(A)` returns; the calls it adds to the trace are, in
order, the intersection of the two intersection bounds, the free of the old
intersection bound of `S`, the union of the two union bounds, the free of the
old union bound of `S`, and the frees of the two volumes of `A`.  So exactly
the four old instances are freed, each once, each old volume of `S` after the
primitive that reads it, and exactly two instances are allocated, which `S`
owns afterwards. -/
theorem addInto_frees_and_allocates (h : Heap) (S A : Cluster) (hSA : h.Owned [S, A]) :
    ∃ h' S' A' p1 q1 p2 q2, Cluster.addInto h S A = some (h', S', A') ∧
      S.MIV = some p1 ∧ S.MSV = some q1 ∧ A.MIV = some p2 ∧ A.MSV = some q2 ∧
      [p1, q1, p2, q2].Nodup ∧
      h'.trace = h.trace ++ [Event.intersect [p1, p2] h.store.length, Event.free p1,
        Event.union [q1, q2] (h.store.length + 1), Event.free q1, Event.free p2,
        Event.free q2] ∧
      (∀ p, h'.freeCount p = h.freeCount p + if p ∈ [p1, q1, p2, q2] then 1 else 0) ∧
      (∀ p ∈ [p1, q1, p2, q2], h.freeCount p = 0 ∧ h'.freeCount p = 1) ∧
      h'.store.length = h.store.length + 2 ∧
      S'.MIV = some h.store.length ∧ S'.MSV = some (h.store.length + 1) ∧
      h'.live h.store.length = true ∧ h'.live (h.store.length + 1) = true ∧
      A'.handles = [] := by
  obtain ⟨p1, q1, p2, q2, v1, u1, v2, u2, hS1, hS2, hA1, hA2, hv1, hu1, hv2, hu2,
    n1, n2, n3, n4, n5, n6⟩ := Heap.Owned.pair h S A hSA
  have l1 := h.read_lt p1 v1 hv1
  have l2 := h.read_lt q1 u1 hu1
  have l3 := h.read_lt p2 v2 hv2
  have l4 := h.read_lt q2 u2 hu2
  have f1 := h.freeCount_of_read p1 v1 hv1
  have f2 := h.freeCount_of_read q1 u1 hu1
  have f3 := h.freeCount_of_read p2 v2 hv2
  have f4 := h.freeCount_of_read q2 u2 hu2
  obtain ⟨r1, r2⟩ := Cluster.addInto_reads h p1 q1 p2 q2 (v1 ∩ v2) (u1 ∪ u2)
    (Event.intersect [p1, p2] h.store.length) (Event.union [q1, q2] (h.store.length + 1))
    l1 l2 l3 l4
  have hcount : ∀ p, ((((((h.push (v1 ∩ v2) (Event.intersect [p1, p2] h.store.length)).free
      p1).push (u1 ∪ u2) (Event.union [q1, q2] (h.store.length + 1))).free q1).free p2).free
      q2).freeCount p = h.freeCount p + if p ∈ [p1, q1, p2, q2] then 1 else 0 := by
    intro p
    simp only [Heap.freeCount_free, Heap.freeCount_push, Heap.length_push, Heap.length_free,
      List.mem_cons, List.mem_singleton, List.not_mem_nil, or_false]
    by_cases e1 : p = p1
    · subst e1
      simp [n1, n2, n3]; omega
    · by_cases e2 : p = q1
      · subst e2
        simp [e1, n4, n5]; omega
      · by_cases e3 : p = p2
        · subst e3
          simp [e1, e2, n6]; omega
        · by_cases e4 : p = q2
          · subst e4
            simp [e1, e2, e3]; omega
          · simp [e1, e2, e3, e4]
  refine ⟨_, _, _, p1, q1, p2, q2,
    Cluster.addInto_eq_of h S A p1 q1 p2 q2 v1 u1 v2 u2 hS1 hS2 hA1 hA2 hv1 hu1 hv2 hu2
      (Ne.symm n1) (Ne.symm n3),
    hS1, hS2, hA1, hA2, ?_, ?_, hcount, ?_, ?_, rfl, rfl,
    (Heap.live_iff_read _ _).mpr ⟨_, r1⟩, (Heap.live_iff_read _ _).mpr ⟨_, r2⟩, rfl⟩
  · simp [n1, n2, n3, n4, n5, n6]
  · simp
  · intro p hp
    have hc := hcount p
    rw [if_pos hp] at hc
    simp only [List.mem_cons, List.mem_singleton, List.not_mem_nil, or_false] at hp
    rcases hp with rfl | rfl | rfl | rfl
    · exact ⟨f1, by rw [hc, f1]⟩
    · exact ⟨f2, by rw [hc, f2]⟩
    · exact ⟨f3, by rw [hc, f3]⟩
    · exact ⟨f4, by rw [hc, f4]⟩
  · simp only [Heap.length_push, Heap.length_free]

/-- Witness for `addInto_frees_and_allocates`: the example clusters `exC` and
`exA`. -/
theorem addInto_frees_and_allocates_witness :
    exHeap.Owned [exC, exA] ∧
    ∃ h' S' A' p1 q1 p2 q2, Cluster.addInto exHeap exC exA = some (h', S', A') ∧
      exC.MIV = some p1 ∧ exC.MSV = some q1 ∧ exA.MIV = some p2 ∧ exA.MSV = some q2 ∧
      [p1, q1, p2, q2].Nodup ∧
      h'.trace = exHeap.trace ++ [Event.intersect [p1, p2] exHeap.store.length, Event.free p1,
        Event.union [q1, q2] (exHeap.store.length + 1), Event.free q1, Event.free p2,
        Event.free q2] ∧
      (∀ p, h'.freeCount p = exHeap.freeCount p + if p ∈ [p1, q1, p2, q2] then 1 else 0) ∧
      (∀ p ∈ [p1, q1, p2, q2], exHeap.freeCount p = 0 ∧ h'.freeCount p = 1) ∧
      h'.store.length = exHeap.store.length + 2 ∧
      S'.MIV = some exHeap.store.length ∧ S'.MSV = some (exHeap.store.length + 1) ∧
      h'.live exHeap.store.length = true ∧ h'.live (exHeap.store.length + 1) = true ∧
      A'.handles = [] :=
  ⟨by decide, addInto_frees_and_allocates exHeap exC exA (by decide)⟩

/-! ## Absent operands -/

theorem Heap.read_none (h : Heap) : h.read none = none := rfl

theorem Heap.read_eq_none_iff_of_live (h : Heap) (x : Option Nat)
    (hl : ∀ p, x = some p → h.live p = true) : h.read x = none ↔ x = none := by
  cases x with
  | none => simp [Heap.read_none]
  | some p =>
    obtain ⟨v, hv⟩ := (h.live_iff_read p).mp (hl p rfl)
    simp [hv]

theorem Heap.readAll_none (h : Heap) (arr : List (Option Nat)) (hn : none ∈ arr) :
    h.readAll arr = none := by
  induction arr with
  | nil => cases hn
  | cons x xs ih =>
    cases x with
    | none => rfl
    | some k =>
      have hx : none ∈ xs := by simpa using hn
      simp [Heap.readAll, ih hx]

theorem MappableOctTree.createFromIntersection_pair_none_iff (h : Heap) (x y : Option Nat) :
    MappableOctTree.createFromIntersection h [x, y] = none ↔
      h.read x = none ∨ h.read y = none := by
  cases x with
  | none => simp [MappableOctTree.createFromIntersection, Heap.readAll, Heap.read_none]
  | some a =>
    cases y with
    | none => simp [MappableOctTree.createFromIntersection, Heap.readAll, Heap.read_none]
    | some b =>
      cases ha : h.read (some a) <;> cases hb : h.read (some b) <;>
        simp [MappableOctTree.createFromIntersection, Heap.readAll, ha, hb]

theorem MappableOctTree.createFromUnion_pair_none_iff (h : Heap) (x y : Option Nat) :
    MappableOctTree.createFromUnion h [x, y] = none ↔
      h.read x = none ∨ h.read y = none := by
  cases x with
  | none => simp [MappableOctTree.createFromUnion, Heap.readAll, Heap.read_none]
  | some a =>
    cases y with
    | none => simp [MappableOctTree.createFromUnion, Heap.readAll, Heap.read_none]
    | some b =>
      cases ha : h.read (some a) <;> cases hb : h.read (some b) <;>
        simp [MappableOctTree.createFromUnion, Heap.readAll, ha, hb]

theorem Cluster.mergeInto_none_iff (h : Heap) (C A B : Cluster) :
    Cluster.mergeInto h C A B = none ↔
      MappableOctTree.createFromIntersection h [A.MIV, B.MIV] = none ∨
      ∃ h1 p, MappableOctTree.createFromIntersection h [A.MIV, B.MIV] = some (h1, p) ∧
        MappableOctTree.createFromUnion h1 [A.MSV, B.MSV] = none := by
  unfold Cluster.mergeInto
  simp only
  cases e1 : MappableOctTree.createFromIntersection h [A.MIV, B.MIV] with
  | none => simp
  | some r =>
    obtain ⟨h1, p⟩ := r
    cases e2 : MappableOctTree.createFromUnion h1 [A.MSV, B.MSV] with
    | none => simp [e2]
    | some r2 => simp [e2]

theorem Cluster.addInto_none_iff (h : Heap) (S A : Cluster) :
    Cluster.addInto h S A = none ↔
      MappableOctTree.createFromIntersection h [S.MIV, A.MIV] = none ∨
      ∃ h1 p, MappableOctTree.createFromIntersection h [S.MIV, A.MIV] = some (h1, p) ∧
        MappableOctTree.createFromUnion (h1.freePtr S.MIV) [S.MSV, A.MSV] = none := by
  unfold Cluster.addInto
  simp only
  cases e1 : MappableOctTree.createFromIntersection h [S.MIV, A.MIV] with
  | none => simp
  | some r =>
    obtain ⟨h1, p⟩ := r
    cases e2 : MappableOctTree.createFromUnion (h1.freePtr S.MIV) [S.MSV, A.MSV] with
    | none => simp [e2]
    | some r2 => simp [e2]

theorem Cluster.mergeInto_none_iff_absent (h : Heap) (C A B : Cluster)
    (hl : ∀ p ∈ A.handles ++ B.handles, h.live p = true) :
    Cluster.mergeInto h C A B = none ↔
      A.MIV = none ∨ A.MSV = none ∨ B.MIV = none ∨ B.MSV = none := by
  have lA1 : ∀ p, A.MIV = some p → h.live p = true := fun p hp =>
    hl p (List.mem_append_left _ ((A.mem_handles p).mpr (Or.inl hp)))
  have lA2 : ∀ p, A.MSV = some p → h.live p = true := fun p hp =>
    hl p (List.mem_append_left _ ((A.mem_handles p).mpr (Or.inr hp)))
  have lB1 : ∀ p, B.MIV = some p → h.live p = true := fun p hp =>
    hl p (List.mem_append_right _ ((B.mem_handles p).mpr (Or.inl hp)))
  have lB2 : ∀ p, B.MSV = some p → h.live p = true := fun p hp =>
    hl p (List.mem_append_right _ ((B.mem_handles p).mpr (Or.inr hp)))
  rw [Cluster.mergeInto_none_iff, MappableOctTree.createFromIntersection_pair_none_iff,
    h.read_eq_none_iff_of_live _ lA1, h.read_eq_none_iff_of_live _ lB1]
  constructor
  · rintro ((h1 | h1) | ⟨h1, p, he, hu⟩)
    · exact Or.inl h1
    · exact Or.inr (Or.inr (Or.inl h1))
    · have hext := MappableOctTree.createFromIntersection_extends [] h h1 _ p he
      rw [MappableOctTree.createFromUnion_pair_none_iff,
        h1.read_eq_none_iff_of_live _
          (fun q hq => hext.live q (List.not_mem_nil q) (lA2 q hq)),
        h1.read_eq_none_iff_of_live _
          (fun q hq => hext.live q (List.not_mem_nil q) (lB2 q hq))] at hu
      rcases hu with hu | hu
      · exact Or.inr (Or.inl hu)
      · exact Or.inr (Or.inr (Or.inr hu))
  · intro habs
    cases he : MappableOctTree.createFromIntersection h [A.MIV, B.MIV] with
    | none =>
      rw [MappableOctTree.createFromIntersection_pair_none_iff,
        h.read_eq_none_iff_of_live _ lA1, h.read_eq_none_iff_of_live _ lB1] at he
      exact Or.inl he
    | some r =>
      obtain ⟨h1, p⟩ := r
      have hne : ¬ (A.MIV = none ∨ B.MIV = none) := by
        intro hc
        rw [← h.read_eq_none_iff_of_live _ lA1, ← h.read_eq_none_iff_of_live _ lB1,
          ← MappableOctTree.createFromIntersection_pair_none_iff, he] at hc
        cases hc
      refine Or.inr ⟨h1, p, rfl, ?_⟩
      rw [MappableOctTree.createFromUnion_pair_none_iff]
      rcases habs with h1' | h1' | h1' | h1'
      · exact absurd (Or.inl h1') hne
      · left; rw [h1']; rfl
      · exact absurd (Or.inr h1') hne
      · right; rw [h1']; rfl

theorem Cluster.addInto_none_iff_absent (h : Heap) (S A : Cluster)
    (hl : ∀ p ∈ S.handles ++ A.handles, h.live p = true)
    (hnd : (S.handles ++ A.handles).Nodup) :
    Cluster.addInto h S A = none ↔
      S.MIV = none ∨ S.MSV = none ∨ A.MIV = none ∨ A.MSV = none := by
  have lS1 : ∀ p, S.MIV = some p → h.live p = true := fun p hp =>
    hl p (List.mem_append_left _ ((S.mem_handles p).mpr (Or.inl hp)))
  have lS2 : ∀ p, S.MSV = some p → h.live p = true := fun p hp =>
    hl p (List.mem_append_left _ ((S.mem_handles p).mpr (Or.inr hp)))
  have lA1 : ∀ p, A.MIV = some p → h.live p = true := fun p hp =>
    hl p (List.mem_append_right _ ((A.mem_handles p).mpr (Or.inl hp)))
  have lA2 : ∀ p, A.MSV = some p → h.live p = true := fun p hp =>
    hl p (List.mem_append_right _ ((A.mem_handles p).mpr (Or.inr hp)))
  have dS : ∀ q, S.MSV = some q → S.MIV ≠ some q := by
    intro q hq hp
    simp [Cluster.handles, hq, hp] at hnd
  have dA : ∀ q, A.MSV = some q → S.MIV ≠ some q := by
    intro q hq hp
    simp [Cluster.handles, hq, hp] at hnd
  have keep : ∀ (h1 : Heap) (p : Nat) (x : Option Nat),
      MappableOctTree.createFromIntersection h [S.MIV, A.MIV] = some (h1, p) →
      (∀ q, x = some q → h.live q = true) → (∀ q, x = some q → S.MIV ≠ some q) →
      ((h1.freePtr S.MIV).read x = none ↔ x = none) := by
    intro h1 p x he hx hd
    have hext : Heap.Extends S.MIV.toList h (h1.freePtr S.MIV) :=
      (MappableOctTree.createFromIntersection_extends _ h h1 _ p he).trans
        (Heap.extends_freePtr _ h1 S.MIV (fun q hq => by simp [hq]))
    exact Heap.read_eq_none_iff_of_live _ x
      (fun q hq => hext.live q (fun hm => hd q hq (by simpa using hm)) (hx q hq))
  rw [Cluster.addInto_none_iff, MappableOctTree.createFromIntersection_pair_none_iff,
    h.read_eq_none_iff_of_live _ lS1, h.read_eq_none_iff_of_live _ lA1]
  constructor
  · rintro ((h1 | h1) | ⟨h1, p, he, hu⟩)
    · exact Or.inl h1
    · exact Or.inr (Or.inr (Or.inl h1))
    · rw [MappableOctTree.createFromUnion_pair_none_iff, keep h1 p _ he lS2 dS,
        keep h1 p _ he lA2 dA] at hu
      rcases hu with hu | hu
      · exact Or.inr (Or.inl hu)
      · exact Or.inr (Or.inr (Or.inr hu))
  · intro habs
    cases he : MappableOctTree.createFromIntersection h [S.MIV, A.MIV] with
    | none =>
      rw [MappableOctTree.createFromIntersection_pair_none_iff,
        h.read_eq_none_iff_of_live _ lS1, h.read_eq_none_iff_of_live _ lA1] at he
      exact Or.inl he
    | some r =>
      obtain ⟨h1, p⟩ := r
      have hne : ¬ (S.MIV = none ∨ A.MIV = none) := by
        intro hc
        rw [← h.read_eq_none_iff_of_live _ lS1, ← h.read_eq_none_iff_of_live _ lA1,
          ← MappableOctTree.createFromIntersection_pair_none_iff, he] at hc
        cases hc
      refine Or.inr ⟨h1, p, rfl, ?_⟩
      rw [MappableOctTree.createFromUnion_pair_none_iff]
      rcases habs with h1' | h1' | h1' | h1'
      · exact absurd (Or.inl h1') hne
      · left; rw [h1']; rfl
      · exact absurd (Or.inr h1') hne
      · right; rw [h1']; rfl

/-- C17: `mergeInto` and `addInto` check nothing: they fail exactly when one of
the primitive calls fails on the operand array made of the clusters' own
pointers, absent ones included, and the primitives fail on every array with an
absent operand.  For operands whose present volumes are live (and, for
`addInto`, different instances) the operation therefore fails exactly when
some operand volume is absent; an empty operand is neither rejected up front
nor treated as identity. -/
theorem no_validity_check :
    (∀ (h : Heap) (C A B : Cluster), Cluster.mergeInto h C A B = none ↔
      MappableOctTree.createFromIntersection h [A.MIV, B.MIV] = none ∨
      ∃ h1 p, MappableOctTree.createFromIntersection h [A.MIV, B.MIV] = some (h1, p) ∧
        MappableOctTree.createFromUnion h1 [A.MSV, B.MSV] = none) ∧
    (∀ (h : Heap) (S A : Cluster), Cluster.addInto h S A = none ↔
      MappableOctTree.createFromIntersection h [S.MIV, A.MIV] = none ∨
      ∃ h1 p, MappableOctTree.createFromIntersection h [S.MIV, A.MIV] = some (h1, p) ∧
        MappableOctTree.createFromUnion (h1.freePtr S.MIV) [S.MSV, A.MSV] = none) ∧
    (∀ (h : Heap) (arr : List (Option Nat)), none ∈ arr →
      MappableOctTree.createFromIntersection h arr = none ∧
        MappableOctTree.createFromUnion h arr = none) ∧
    (∀ (h : Heap) (C A B : Cluster), (∀ p ∈ A.handles ++ B.handles, h.live p = true) →
      (Cluster.mergeInto h C A B = none ↔
        A.MIV = none ∨ A.MSV = none ∨ B.MIV = none ∨ B.MSV = none)) ∧
    (∀ (h : Heap) (S A : Cluster), (∀ p ∈ S.handles ++ A.handles, h.live p = true) →
      (S.handles ++ A.handles).Nodup →
      (Cluster.addInto h S A = none ↔
        S.MIV = none ∨ S.MSV = none ∨ A.MIV = none ∨ A.MSV = none)) ∧
    (∀ (h : Heap) (C X : Cluster), Cluster.mergeInto h C Cluster.new X = none ∧
      Cluster.mergeInto h C X Cluster.new = none ∧
      Cluster.addInto h Cluster.new X = none ∧ Cluster.addInto h X Cluster.new = none) := by
  refine ⟨Cluster.mergeInto_none_iff, Cluster.addInto_none_iff, ?_,
    Cluster.mergeInto_none_iff_absent, Cluster.addInto_none_iff_absent, ?_⟩
  · intro h arr hn
    simp [MappableOctTree.createFromIntersection, MappableOctTree.createFromUnion,
      h.readAll_none arr hn]
  · intro h C X
    refine ⟨?_, ?_, ?_, ?_⟩
    · rw [Cluster.mergeInto_none_iff, MappableOctTree.createFromIntersection_pair_none_iff]
      exact Or.inl (Or.inl rfl)
    · rw [Cluster.mergeInto_none_iff, MappableOctTree.createFromIntersection_pair_none_iff]
      exact Or.inl (Or.inr rfl)
    · rw [Cluster.addInto_none_iff, MappableOctTree.createFromIntersection_pair_none_iff]
      exact Or.inl (Or.inl rfl)
    · rw [Cluster.addInto_none_iff, MappableOctTree.createFromIntersection_pair_none_iff]
      exact Or.inl (Or.inr rfl)

/-- Witness for `no_validity_check`: the valid example clusters, for which no
volume is absent and both operations return, and an array with an absent
operand. -/
theorem no_validity_check_witness :
    (none ∈ [some 2, (none : Option Nat)] ∧
      MappableOctTree.createFromIntersection exHeap [some 2, none] = none ∧
      MappableOctTree.createFromUnion exHeap [some 2, none] = none) ∧
    ((∀ p ∈ exA.handles ++ exB.handles, exHeap.live p = true) ∧
      (Cluster.mergeInto exHeap exC exA exB = none ↔
        exA.MIV = none ∨ exA.MSV = none ∨ exB.MIV = none ∨ exB.MSV = none) ∧
      (Cluster.mergeInto exHeap exC exA exB).isSome = true) ∧
    ((∀ p ∈ exC.handles ++ exA.handles, exHeap.live p = true) ∧
      (exC.handles ++ exA.handles).Nodup ∧
      (Cluster.addInto exHeap exC exA = none ↔
        exC.MIV = none ∨ exC.MSV = none ∨ exA.MIV = none ∨ exA.MSV = none) ∧
      (Cluster.addInto exHeap exC exA).isSome = true) :=
  ⟨⟨by decide, no_validity_check.2.2.1 exHeap [some 2, none] (by decide)⟩,
    ⟨by decide, no_validity_check.2.2.2.1 exHeap exC exA exB (by decide), by decide⟩,
    ⟨by decide, by decide,
      no_validity_check.2.2.2.2.1 exHeap exC exA (by decide) (by decide), by decide⟩⟩

/-- C18: for valid `S` and `A`, `S.addInto(A)` and the merge of deep copies of
`S` and `A` into a default-constructed cluster both return; the two results
have the same member sequence and content-equal intersection and union
bounds, and in both cases every operand other than the result ends empty and
invalid. -/
theorem addInto_agrees_with_mergeInto (h : Heap) (S A : Cluster) (hSA : h.Owned [S, A]) :
    ∃ h1 S1 A1 h2 Sc h3 Ac h4 C Sc' Ac' vi vu,
      Cluster.addInto h S A = some (h1, S1, A1) ∧
      Cluster.copy h S = some (h2, Sc) ∧ Cluster.copy h2 A = some (h3, Ac) ∧
      Cluster.mergeInto h3 Cluster.new Sc Ac = some (h4, C, Sc', Ac') ∧
      S1.indices = C.indices ∧ S1.indices = S.indices ++ A.indices ∧
      h1.read S1.MIV = some vi ∧ h4.read C.MIV = some vi ∧
      h1.read S1.MSV = some vu ∧ h4.read C.MSV = some vu ∧
      A1 = Cluster.new ∧ Sc' = Cluster.new ∧ Ac' = Cluster.new ∧
      Cluster.new.isValid = false ∧ Cluster.new.indices = [] := by
  obtain ⟨p1, q1, p2, q2, v1, u1, v2, u2, hS1, hS2, hA1, hA2, hv1, hu1, hv2, hu2,
    n1, n2, n3, n4, n5, n6⟩ := Heap.Owned.pair h S A hSA
  have l1 := h.read_lt p1 v1 hv1
  have l2 := h.read_lt q1 u1 hu1
  have l3 := h.read_lt p2 v2 hv2
  have l4 := h.read_lt q2 u2 hu2
  obtain ⟨r1, r2⟩ := Cluster.addInto_reads h p1 q1 p2 q2 (v1 ∩ v2) (u1 ∪ u2)
    (Event.intersect [p1, p2] h.store.length) (Event.union [q1, q2] (h.store.length + 1))
    l1 l2 l3 l4
  have hlS : ∀ p ∈ S.handles, h.live p = true := by
    intro p hp
    rw [Cluster.handles_of S p1 q1 hS1 hS2] at hp
    simp only [List.mem_cons, List.mem_singleton, List.not_mem_nil, or_false] at hp
    rcases hp with rfl | rfl
    · exact (h.live_iff_read _).mpr ⟨v1, hv1⟩
    · exact (h.live_iff_read _).mpr ⟨u1, hu1⟩
  obtain ⟨h2, Sc, e2, hi2, hm2, hs2, im2, is2, fr2, -, ext2, -⟩ := Cluster.copy_summary h S hlS
  have hlA : ∀ p ∈ A.handles, h2.live p = true := by
    intro p hp
    rw [Cluster.handles_of A p2 q2 hA1 hA2] at hp
    simp only [List.mem_cons, List.mem_singleton, List.not_mem_nil, or_false] at hp
    rcases hp with rfl | rfl
    · exact ext2.live _ (List.not_mem_nil _) ((h.live_iff_read _).mpr ⟨v2, hv2⟩)
    · exact ext2.live _ (List.not_mem_nil _) ((h.live_iff_read _).mpr ⟨u2, hu2⟩)
  obtain ⟨h3, Ac, e3, hi3, hm3, hs3, im3, is3, fr3, -, ext3, -⟩ :=
    Cluster.copy_summary h2 A hlA
  rw [hS1] at im2 hm2; rw [hS2] at is2 hs2; rw [hA1] at im3 hm3; rw [hA2] at is3 hs3
  obtain ⟨p1', hp1'⟩ := Option.isSome_iff_exists.mp im2
  obtain ⟨q1', hq1'⟩ := Option.isSome_iff_exists.mp is2
  obtain ⟨p2', hp2'⟩ := Option.isSome_iff_exists.mp im3
  obtain ⟨q2', hq2'⟩ := Option.isSome_iff_exists.mp is3
  rw [hp1', hv1] at hm2; rw [hq1', hu1] at hs2
  rw [hp2', ext2.read p2 v2 (List.not_mem_nil _) hv2] at hm3
  rw [hq2', ext2.read q2 u2 (List.not_mem_nil _) hu2] at hs3
  have hm2' := ext3.read p1' v1 (List.not_mem_nil _) hm2
  have hs2' := ext3.read q1' u1 (List.not_mem_nil _) hs2
  obtain ⟨r3, r4⟩ := Cluster.mergeInto_reads h3 p1' q1' p2' q2' (v1 ∩ v2) (u1 ∪ u2)
    (Event.intersect [p1', p2'] h3.store.length) (Event.union [q1', q2'] (h3.store.length + 1))
    (h3.read_lt _ _ hm2') (h3.read_lt _ _ hs2') (h3.read_lt _ _ hm3) (h3.read_lt _ _ hs3)
  refine ⟨_, _, _, h2, Sc, h3, Ac, _, _, _, _, v1 ∩ v2, u1 ∪ u2,
    Cluster.addInto_eq_of h S A p1 q1 p2 q2 v1 u1 v2 u2 hS1 hS2 hA1 hA2 hv1 hu1 hv2 hu2
      (Ne.symm n1) (Ne.symm n3),
    e2, e3,
    Cluster.mergeInto_eq_of h3 Cluster.new Sc Ac p1' q1' p2' q2' v1 u1 v2 u2 hp1' hq1' hp2' hq2'
      hm2' hs2' hm3 hs3,
    ?_, rfl, r1, r3, r2, r4, rfl, rfl, rfl, rfl, rfl⟩
  simp [hi2, hi3, Cluster.new]

/-- Witness for `addInto_agrees_with_mergeInto`: the example clusters `exC` and
`exA`. -/
theorem addInto_agrees_with_mergeInto_witness :
    exHeap.Owned [exC, exA] ∧
    ∃ h1 S1 A1 h2 Sc h3 Ac h4 C Sc' Ac' vi vu,
      Cluster.addInto exHeap exC exA = some (h1, S1, A1) ∧
      Cluster.copy exHeap exC = some (h2, Sc) ∧ Cluster.copy h2 exA = some (h3, Ac) ∧
      Cluster.mergeInto h3 Cluster.new Sc Ac = some (h4, C, Sc', Ac') ∧
      S1.indices = C.indices ∧ S1.indices = exC.indices ++ exA.indices ∧
      h1.read S1.MIV = some vi ∧ h4.read C.MIV = some vi ∧
      h1.read S1.MSV = some vu ∧ h4.read C.MSV = some vu ∧
      A1 = Cluster.new ∧ Sc' = Cluster.new ∧ Ac' = Cluster.new ∧
      Cluster.new.isValid = false ∧ Cluster.new.indices = [] :=
  ⟨by decide, addInto_agrees_with_mergeInto exHeap exC exA (by decide)⟩

end Leadit
